import Mathlib

/-!
Verification development for the BetterStreet → Précompte pipeline
(`betterstreet_to_precompte_v5.py`).

The Python source is shallowly embedded:
* string manipulation is modelled on `List Char` with structural recursion
  (Python `str.split`, `str.strip`, `str.replace`, `str.startswith`, ...);
* `datetime.strptime` is modelled directive by directive for the exact format
  lists `DT_FORMATS` and `DATE_ONLY_FORMATS` of the source, including the
  1-or-2-digit matching of `%d`/`%m`/`%H`/`%M`/`%S`, the `%y` century rule and
  the calendar validation performed by the `datetime` constructor;
* Python dicts are modelled as association lists with first-match lookup and
  replace-or-append assignment (insertion order preserved, keys unique);
* the stateful main loop is modelled as a pure per-record function
  (`processLine`) folded over the rebuilt record lines (`pipeline`).

Whitespace is modelled as the ASCII whitespace characters; the source data
never relies on exotic Unicode whitespace.
-/

namespace BS

/-- ASCII whitespace, modelling the characters stripped by Python `str.strip()`. -/
def isWs (c : Char) : Bool :=
  c == ' ' || c == '\t' || c == '\n' || c == '\r' || c == '\x0b' || c == '\x0c'

/-- Drop leading whitespace. -/
def trimLeft (l : List Char) : List Char := l.dropWhile isWs

/-- Drop trailing whitespace. -/
def trimRight (l : List Char) : List Char := (l.reverse.dropWhile isWs).reverse

/-- Model of Python `str.strip()`. -/
def trimC (l : List Char) : List Char := trimRight (trimLeft l)

/-- Model of Python `str.strip()` on `String`. -/
def pyStrip (s : String) : String := ⟨trimC s.data⟩

/-- Model of Python `str.rstrip("\n")`. -/
def stripNL (s : String) : String := ⟨(s.data.reverse.dropWhile (· == '\n')).reverse⟩

/-- Model of Python `str.strip(c)` for a single character `c`
(drop every leading and trailing occurrence of `c`). -/
def stripChar (c : Char) (l : List Char) : List Char :=
  ((l.dropWhile (· == c)).reverse.dropWhile (· == c)).reverse

/-- Model of Python `str.split(d)` for a one-character delimiter. -/
def splitC (d : Char) : List Char → List (List Char)
  | [] => [[]]
  | c :: cs =>
    match splitC d cs with
    | [] => [[c]]
    | h :: t => if c == d then [] :: h :: t else (c :: h) :: t

/-- Model of Python `str.split(d)` on `String`, returning `String` pieces. -/
def pySplit (d : Char) (s : String) : List String :=
  (splitC d s.data).map (fun l => (⟨l⟩ : String))

/-- Model of Python `str.replace(sub, "")` for a one-character `sub`
(removing every occurrence of the character). -/
def removeChar (c : Char) (l : List Char) : List Char := l.filter (fun x => ¬ (x == c))

/-- `" | ".join(notes)`, as used for the anomaly `Notes` column. -/
def joinNotes : List String → String
  | [] => ""
  | [n] => n
  | n :: m :: rest => n ++ " | " ++ joinNotes (m :: rest)

/-- `";".join(pieces)`, as used to rebuild the description token span. -/
def joinSemi : List String → String
  | [] => ""
  | [n] => n
  | n :: m :: rest => n ++ ";" ++ joinSemi (m :: rest)

/-- Substring test on character lists (model of Python `sub in s`). -/
def isSubB (p : List Char) : List Char → Bool
  | [] => p.isEmpty
  | c :: t => p.isPrefixOf (c :: t) || isSubB p t

/-- Model of Python `sub in s` on `String`. -/
def strContains (s pat : String) : Bool := isSubB pat.data s.data

/-- The byte-order-mark character U+FEFF removed by the source. -/
def bomChar : Char := Char.ofNat 0xFEFF

/-- Cleaning applied to a first token before the id test:
`t.replace(BOM, "").strip().strip(dquote).strip(squote)`. -/
def cleanTok (s : String) : String :=
  ⟨stripChar '\'' (stripChar '"' (trimC (removeChar bomChar s.data)))⟩

/-- `t.startswith("BE-")`. -/
def startsBE (s : String) : Bool := ['B', 'E', '-'].isPrefixOf s.data

end BS

namespace BS

/-! ### Regex models: `RE_DT`, `RE_DATE`, `RE_BS_ID`, `RE_STREET` -/

/-- Numeric value of a digit character. -/
def dval (c : Char) : Nat := c.toNat - '0'.toNat

/-- Consume exactly `n` digits. -/
def takeDigits : Nat → List Char → Option (List Char)
  | 0, l => some l
  | _ + 1, [] => none
  | n + 1, c :: cs => if c.isDigit then takeDigits n cs else none

/-- Consume one date separator (dash or slash). -/
def takeSep : List Char → Option (List Char)
  | c :: cs => if c == '-' || c == '/' then some cs else none
  | [] => none

/-- Model of `RE_DATE` (two digits, a dash-or-slash separator, two digits, a separator, two to four digits, end) on a token. -/
def matchDATE (l : List Char) : Bool :=
  match takeDigits 2 l with
  | none => false
  | some l1 =>
    match takeSep l1 with
    | none => false
    | some l2 =>
      match takeDigits 2 l2 with
      | none => false
      | some l3 =>
        match takeSep l3 with
        | none => false
        | some l4 =>
          let run := l4.takeWhile Char.isDigit
          2 ≤ run.length && run.length ≤ 4 && l4.drop run.length == []

/-- Model of `RE_DT` (a `RE_DATE` shape followed by whitespace, `HH:MM` and an optional `:SS`). -/
def matchDT (l : List Char) : Bool :=
  match takeDigits 2 l with
  | none => false
  | some l1 =>
    match takeSep l1 with
    | none => false
    | some l2 =>
      match takeDigits 2 l2 with
      | none => false
      | some l3 =>
        match takeSep l3 with
        | none => false
        | some l4 =>
          let run := l4.takeWhile Char.isDigit
          if 2 ≤ run.length && run.length ≤ 4 then
            match l4.drop run.length with
            | c :: rest =>
              if isWs c then
                match takeDigits 2 (rest.dropWhile isWs) with
                | none => false
                | some m1 =>
                  match m1 with
                  | ':' :: m2 =>
                    match takeDigits 2 m2 with
                    | none => false
                    | some m3 =>
                      match m3 with
                      | [] => true
                      | ':' :: m4 =>
                        match takeDigits 2 m4 with
                        | some [] => true
                        | _ => false
                      | _ => false
                  | _ => false
              else false
            | [] => false
          else false

/-- `RE_DATE.match(t)` on a `String` token. -/
def reDATE (t : String) : Bool := matchDATE t.data

/-- `RE_DT.match(t)` on a `String` token. -/
def reDT (t : String) : Bool := matchDT t.data

/-- Lower-casing covering ASCII and the Latin-1 letters (model of the
case-insensitive regex flags; the street keywords only contain ASCII and
accented Latin-1 letters). -/
def lowerC (c : Char) : Char :=
  if 'A' ≤ c && c ≤ 'Z' then Char.ofNat (c.toNat + 32)
  else if 0xC0 ≤ c.toNat && c.toNat ≤ 0xDE && c.toNat ≠ 0xD7 then Char.ofNat (c.toNat + 32)
  else c

/-- Word characters for the regex `\b` boundary (letters, digits, underscore;
Latin-1 letters included since the data is French text). -/
def isWordChar (c : Char) : Bool :=
  c.isAlpha || c.isDigit || c == '_' ||
    (0xC0 ≤ c.toNat && c.toNat ≤ 0xFF && c.toNat ≠ 0xD7 && c.toNat ≠ 0xF7)

/-- Model of `RE_BS_ID = ^BE-\d{3,5}-` with `re.IGNORECASE`. -/
def matchBSID (t : String) : Bool :=
  let l := t.data.map lowerC
  if ['b', 'e', '-'].isPrefixOf l then
    let rest := l.drop 3
    let ds := rest.takeWhile Char.isDigit
    3 ≤ ds.length && ds.length ≤ 5 &&
      (match rest.drop ds.length with
       | '-' :: _ => true
       | _ => false)
  else false

/-- The alternatives of `RE_STREET`, lower-cased.  `av\.?`, `ch\.?`, `bd\.?`
contribute both the bare and the dotted form. -/
def streetWords : List (List Char) :=
  [ "rue".data, "avenue".data, "av.".data, "av".data, "chaussée".data,
    "ch.".data, "ch".data, "place".data, "impasse".data, "allée".data,
    "chemin".data, "route".data, "sentier".data, "clos".data, "quai".data,
    "boulevard".data, "bd.".data, "bd".data ]

/-- Right word-boundary check after a matched keyword: if the keyword ends in a
word character the next character must be absent or a non-word character; if it
ends in `.` (non-word) the next character must be a word character. -/
def boundaryR (wlast : Char) (rest : List Char) : Bool :=
  if isWordChar wlast then
    match rest with
    | [] => true
    | c :: _ => ¬ isWordChar c
  else
    match rest with
    | [] => false
    | c :: _ => isWordChar c

/-- Does some street keyword match at the start of `l` (already at a left word
boundary), with a right word boundary after it? -/
def wordAt (l : List Char) : Bool :=
  streetWords.any fun w =>
    (l.take w.length).map lowerC == w &&
    (match w.getLast? with
     | some c => boundaryR c (l.drop w.length)
     | none => false)

/-- Model of `RE_STREET.search(t)`: scan every position, tracking the previous
character for the left `\b` boundary. -/
def streetFrom (prev : Option Char) : List Char → Bool
  | [] => false
  | c :: cs =>
    ((match prev with
      | none => true
      | some p => ¬ isWordChar p) && wordAt (c :: cs)) || streetFrom (some c) cs

/-- `RE_STREET.search(t)` on a `String`. -/
def streetSearch (t : String) : Bool := streetFrom none t.data

/-! ### Heuristic token classifiers of the source -/

/-- `is_empty(v)` of the source, on optional strings. -/
def isEmptyO : Option String → Bool
  | none => true
  | some s => pyStrip s == ""

/-- `looks_like_betterstreet_id(v)` of the source. -/
def looks_like_betterstreet_id (v : String) : Bool :=
  let t := pyStrip v
  startsBE t || matchBSID t

/-- `looks_like_address(v)` of the source. -/
def looks_like_address (v : String) : Bool :=
  let t := pyStrip v
  if t.data.length < 10 then false
  else if looks_like_betterstreet_id t then false
  else if ¬ t.data.any (fun c => c.isAlpha || (0xC0 ≤ c.toNat && c.toNat ≤ 0xFF &&
      c.toNat ≠ 0xD7 && c.toNat ≠ 0xF7)) then false
  else if ¬ streetSearch t then false
  else if ¬ t.data.any Char.isDigit then false
  else true

end BS

namespace BS

/-! ### Calendar model (`datetime`, `date`, `timedelta`) -/

/-- A Python `datetime.datetime` value. -/
structure PyDateTime where
  year : Nat
  month : Nat
  day : Nat
  hour : Nat
  minute : Nat
  second : Nat
deriving DecidableEq, Repr

/-- A Python `datetime.date` value. -/
structure PyDate where
  year : Nat
  month : Nat
  day : Nat
deriving DecidableEq, Repr

/-- Proleptic-Gregorian leap-year rule used by `datetime`. -/
def isLeap (y : Nat) : Bool := (y % 4 == 0 && y % 100 != 0) || y % 400 == 0

/-- Length of month `m` (`1..12`) given the leap flag. -/
def monthDays (leap : Bool) : Nat → Nat
  | 1 => 31
  | 2 => if leap then 29 else 28
  | 3 => 31
  | 4 => 30
  | 5 => 31
  | 6 => 30
  | 7 => 31
  | 8 => 31
  | 9 => 30
  | 10 => 31
  | 11 => 30
  | 12 => 31
  | _ => 0

/-- Days in month `m` of year `y`. -/
def daysInMonth (y m : Nat) : Nat := monthDays (isLeap y) m

/-- Days before month `m` given the leap flag. -/
def daysBeforeMonthB (leap : Bool) : Nat → Nat
  | 0 => 0
  | 1 => 0
  | m + 2 => daysBeforeMonthB leap (m + 1) + monthDays leap (m + 1)

/-- Days of year `y` strictly before month `m`. -/
def daysBeforeMonth (y : Nat) (m : Nat) : Nat := daysBeforeMonthB (isLeap y) m

/-- Days strictly before year `y` in the proleptic Gregorian calendar
(counting from year 1, as `datetime.toordinal` does). -/
def daysBeforeYear (y : Nat) : Nat :=
  365 * (y - 1) + (y - 1) / 4 - (y - 1) / 100 + (y - 1) / 400

/-- Ordinal day number of a datetime's date (0 for 0001-01-01). -/
def dayIndex (dt : PyDateTime) : Nat :=
  daysBeforeYear dt.year + daysBeforeMonth dt.year dt.month + (dt.day - 1)

/-- Seconds since 0001-01-01 00:00:00.  `timedelta` subtraction of two
datetimes is the difference of these values. -/
def toSecs (dt : PyDateTime) : Nat :=
  dayIndex dt * 86400 + dt.hour * 3600 + dt.minute * 60 + dt.second

/-- Python `datetime` comparison (lexicographic on the six fields). -/
def dtLt (a b : PyDateTime) : Bool :=
  a.year < b.year || (a.year == b.year &&
    (a.month < b.month || (a.month == b.month &&
      (a.day < b.day || (a.day == b.day &&
        (a.hour < b.hour || (a.hour == b.hour &&
          (a.minute < b.minute || (a.minute == b.minute &&
            a.second < b.second)))))))))

/-- The date of the following day (calendar rollover). -/
def nextDay (dt : PyDateTime) : PyDateTime :=
  if dt.day < daysInMonth dt.year dt.month then { dt with day := dt.day + 1 }
  else if dt.month < 12 then { dt with month := dt.month + 1, day := 1 }
  else { dt with year := dt.year + 1, month := 1, day := 1 }

/-- Model of `dt + timedelta(hours=12)`. -/
def addHours12 (dt : PyDateTime) : PyDateTime :=
  if dt.hour + 12 < 24 then { dt with hour := dt.hour + 12 }
  else nextDay { dt with hour := dt.hour + 12 - 24 }

/-- Field ranges enforced by the `datetime` constructor. -/
def validDT (p : PyDateTime) : Bool :=
  1 ≤ p.year && p.year ≤ 9999 && 1 ≤ p.month && p.month ≤ 12 &&
  1 ≤ p.day && p.day ≤ daysInMonth p.year p.month &&
  p.hour ≤ 23 && p.minute ≤ 59 && p.second ≤ 59

/-! ### `datetime.strptime` model for the source's format lists -/

/-- One `strptime` format directive. -/
inductive Dir where
  | d | mo | y2 | y4 | h | mi | s
  | lit (c : Char)
  | ws
deriving DecidableEq

/-- Consume one or two digits as the CPython `_strptime` regexes do: the
two-digit value is taken when it lies in `lo..hi`, otherwise a single digit is
taken when its value is at least `lo` (the one-digit alternatives of the
generated regexes are `[1-9]` for day/month and any digit otherwise).  `spc`
enables the extra alternative of the `d` directive: a space followed by a
nonzero digit. -/
def num2 (lo hi : Nat) (spc : Bool) : List Char → Option (Nat × List Char)
  | c1 :: c2 :: rest =>
    if c1.isDigit then
      let v2 := dval c1 * 10 + dval c2
      if c2.isDigit && (decide (lo ≤ v2) && decide (v2 ≤ hi)) then some (v2, rest)
      else if lo ≤ dval c1 then some (dval c1, c2 :: rest)
      else none
    else if spc && c1 == ' ' && c2.isDigit && 1 ≤ dval c2 then some (dval c2, rest)
    else none
  | [c1] => if c1.isDigit && lo ≤ dval c1 then some (dval c1, []) else none
  | [] => none

/-- Consume exactly two digits (the CPython `y` directive regex). -/
def num2exact : List Char → Option (Nat × List Char)
  | c1 :: c2 :: rest =>
    if c1.isDigit && c2.isDigit then some (dval c1 * 10 + dval c2, rest) else none
  | _ => none

/-- Consume exactly four digits (the CPython `Y` directive regex). -/
def num4exact : List Char → Option (Nat × List Char)
  | c1 :: c2 :: c3 :: c4 :: rest =>
    if c1.isDigit && c2.isDigit && c3.isDigit && c4.isDigit then
      some (((dval c1 * 10 + dval c2) * 10 + dval c3) * 10 + dval c4, rest)
    else none
  | _ => none

/-- `%y` century mapping of CPython: `0..68 → 2000+y`, `69..99 → 1900+y`. -/
def mapY2 (v : Nat) : Nat := if v ≤ 68 then 2000 + v else 1900 + v

/-- Intermediate parse record with the CPython `strptime` defaults. -/
structure Parsed where
  year : Nat := 1900
  month : Nat := 1
  day : Nat := 1
  hour : Nat := 0
  minute : Nat := 0
  second : Nat := 0

/-- Run a directive list against the characters; a full match is required
(`_strptime` rejects unconsumed input). -/
def runDirs : List Dir → List Char → Parsed → Option Parsed
  | [], [], st => some st
  | [], _ :: _, _ => none
  | dir :: ds, cs, st =>
    match dir with
    | .d => match num2 1 31 true cs with
      | some (v, rest) => runDirs ds rest { st with day := v }
      | none => none
    | .mo => match num2 1 12 false cs with
      | some (v, rest) => runDirs ds rest { st with month := v }
      | none => none
    | .y2 => match num2exact cs with
      | some (v, rest) => runDirs ds rest { st with year := mapY2 v }
      | none => none
    | .y4 => match num4exact cs with
      | some (v, rest) => runDirs ds rest { st with year := v }
      | none => none
    | .h => match num2 0 23 false cs with
      | some (v, rest) => runDirs ds rest { st with hour := v }
      | none => none
    | .mi => match num2 0 59 false cs with
      | some (v, rest) => runDirs ds rest { st with minute := v }
      | none => none
    | .s => match num2 0 59 false cs with
      | some (v, rest) => runDirs ds rest { st with second := v }
      | none => none
    | .lit c => match cs with
      | c' :: rest => if c' == c then runDirs ds rest st else none
      | [] => none
    | .ws => match cs with
      | c :: rest => if isWs c then runDirs ds (rest.dropWhile isWs) st else none
      | [] => none

/-- The `datetime` constructor: validate the parsed fields. -/
def mkDT (p : Parsed) : Option PyDateTime :=
  let dt : PyDateTime := ⟨p.year, p.month, p.day, p.hour, p.minute, p.second⟩
  if validDT dt then some dt else none

/-- `datetime.strptime(s, fmt)` for one format. -/
def strptime (fmt : List Dir) (cs : List Char) : Option PyDateTime :=
  (runDirs fmt cs {}).bind mkDT

/-- `DT_FORMATS` of the source, in order. -/
def DT_FORMATS : List (List Dir) :=
  [ [.d, .lit '-', .mo, .lit '-', .y2, .ws, .h, .lit ':', .mi],
    [.d, .lit '-', .mo, .lit '-', .y4, .ws, .h, .lit ':', .mi],
    [.d, .lit '/', .mo, .lit '/', .y2, .ws, .h, .lit ':', .mi],
    [.d, .lit '/', .mo, .lit '/', .y4, .ws, .h, .lit ':', .mi],
    [.y4, .lit '-', .mo, .lit '-', .d, .ws, .h, .lit ':', .mi],
    [.y4, .lit '-', .mo, .lit '-', .d, .ws, .h, .lit ':', .mi, .lit ':', .s],
    [.d, .lit '-', .mo, .lit '-', .y4, .ws, .h, .lit ':', .mi, .lit ':', .s],
    [.d, .lit '/', .mo, .lit '/', .y4, .ws, .h, .lit ':', .mi, .lit ':', .s] ]

/-- `DATE_ONLY_FORMATS` of the source, in order. -/
def DATE_ONLY_FORMATS : List (List Dir) :=
  [ [.d, .lit '-', .mo, .lit '-', .y2],
    [.d, .lit '-', .mo, .lit '-', .y4],
    [.d, .lit '/', .mo, .lit '/', .y2],
    [.d, .lit '/', .mo, .lit '/', .y4] ]

/-- Try formats in order, first success wins. -/
def tryFormats : List (List Dir) → List Char → Option PyDateTime
  | [], _ => none
  | f :: fs, cs =>
    match strptime f cs with
    | some dt => some dt
    | none => tryFormats fs cs

/-- `parse_dt(val)` of the source: strip, try every `DT_FORMATS` entry in
order, raise `ValueError` with the offending string when none matches. -/
def parse_dt (val : String) : Except String PyDateTime :=
  match tryFormats DT_FORMATS (pyStrip val).data with
  | some dt => .ok dt
  | none => .error ("Date/heure non reconnue: " ++ pyStrip val)

/-- `parse_date_only(val)` of the source: permissive, returns `None` when no
`DATE_ONLY_FORMATS` entry matches. -/
def parse_date_only (val : String) : Option PyDate :=
  (tryFormats DATE_ONLY_FORMATS (pyStrip val).data).map fun dt =>
    ⟨dt.year, dt.month, dt.day⟩

/-- `in_year(dt, year)` of the source. -/
def in_year (dt : Option PyDateTime) (year : Nat) : Bool :=
  match dt with
  | some d => d.year == year
  | none => false

end BS

namespace BS

/-! ### Python dict model (association list, insertion order, unique keys) -/

/-- A `FieldMap` is the source's per-record dict from canonical field name to
optional raw string value. -/
abbrev FieldMap := List (String × Option String)

/-- Dict assignment `f[k] = v`: replace in place, or append a new key. -/
def fset : FieldMap → String → Option String → FieldMap
  | [], k, v => [(k, v)]
  | (k', v') :: rest, k, v =>
    if k' == k then (k', v) :: rest else (k', v') :: fset rest k v

/-- Dict access `f.get(k)` (`None` both for a missing key and a `None` value,
exactly as the source uses it). -/
def fget : FieldMap → String → Option String
  | [], _ => none
  | (k', v) :: rest, k => if k' == k then v else fget rest k

/-- Build a dict from a pair list (later assignments win, as `dict(zip(...))`). -/
def fromPairs (ps : List (String × Option String)) : FieldMap :=
  ps.foldl (fun m p => fset m p.1 p.2) []

/-- `{k: None for k in header_cols}`. -/
def initFields (cols : List String) : FieldMap :=
  fromPairs (cols.map fun k => (k, none))

/-- Python truthiness of `f.get(k)` (non-`None` and non-empty string). -/
def getTruthy (f : FieldMap) (k : String) : Bool :=
  match fget f k with
  | some s => ¬ (s == "")
  | none => false

/-- `"" → None`, models `v if v != "" else None` and `x or None` on strings. -/
def emptyToNone (s : String) : Option String := if s == "" then none else some s

/-! ### Record Reassembler (`rebuild_records_by_id`) -/

/-- `not line.strip()`. -/
def isBlank (s : String) : Bool := pyStrip s == ""

/-- `line.split(delimiter, 1)[0]`. -/
def firstTok (delim : Char) (line : String) : String := (pySplit delim line).getD 0 ""

/-- The loop of `rebuild_records_by_id` over the lines after the header,
carrying the currently open record buffer. -/
def rebuildLoop (delim : Char) (current : Option String) : List String → List String
  | [] =>
    match current with
    | some c => [c]
    | none => []
  | raw :: rest =>
    let line := stripNL raw
    if isBlank line then rebuildLoop delim current rest
    else if startsBE (cleanTok (firstTok delim line)) then
      (match current with
       | some c => [c]
       | none => []) ++ rebuildLoop delim (some line) rest
    else
      match current with
      | none => rebuildLoop delim none rest
      | some c => rebuildLoop delim (some (c ++ " " ++ line)) rest

/-- `rebuild_records_by_id(lines, delimiter)` of the source: skip leading blank
lines, keep the first non-blank line as header, then merge continuation lines
into the current record. -/
def rebuild_records_by_id (lines : List String) (delim : Char) : List String :=
  match lines.dropWhile isBlank with
  | [] => []
  | h :: t => stripNL h :: rebuildLoop delim none t

/-! ### Field Extractor (`extract_fields`) -/

/-- `ExtractResult` of the source. -/
structure ExtractResult where
  fields : FieldMap
  aligned : Bool
deriving DecidableEq, Repr

/-- `[t.strip() for t in record_line.split(delimiter)]`. -/
def toksOf (delim : Char) (line : String) : List String :=
  (pySplit delim line).map pyStrip

/-- The cleaned first token `rid` of `extract_fields`. -/
def ridOf (delim : Char) (line : String) : String :=
  cleanTok ((toksOf delim line).getD 0 "")

/-- Indices of tokens satisfying a predicate (`enumerate` + comprehension). -/
def idxsWhere (p : String → Bool) (toks : List String) : List Nat :=
  toks.enum.filterMap fun it => if p it.2 then some it.1 else none

/-- `created_idx`/`echeance_idx` selection of the source. -/
def createdEch (startIdx? : Option Nat) (dateIdxs : List Nat) : Option Nat × Option Nat :=
  match startIdx? with
  | some si =>
    let prev := dateIdxs.filter (· < si)
    if 2 ≤ prev.length then
      (some (prev.getD (prev.length - 2) 0), some (prev.getD (prev.length - 1) 0))
    else (none, none)
  | none =>
    if 2 ≤ dateIdxs.length then (some (dateIdxs.getD 0 0), some (dateIdxs.getD 1 0))
    else (none, none)

/-- `agents_idx` selection: just after the end-planning timestamp, else
`echeance_idx + 3` in the un-planned shape. -/
def agentsIdxOf (n : Nat) (endIdx? echIdx? : Option Nat) : Option Nat :=
  match endIdx? with
  | some ei =>
    if ei + 1 < n then some (ei + 1)
    else
      match echIdx? with
      | some ci => if ci + 3 < n then some (ci + 3) else none
      | none => none
  | none =>
    match echIdx? with
    | some ci => if ci + 3 < n then some (ci + 3) else none
    | none => none

/-- The `Créé le` / `Catégorie` / `Description` block of `extract_fields`. -/
def phCreated (toks : List String) (createdIdx? : Option Nat) (f : FieldMap) : FieldMap :=
  match createdIdx? with
  | some ci =>
    let fA := fset f "Créé le" (emptyToNone (toks.getD ci ""))
    let fB :=
      if 2 ≤ ci then
        let cand := pyStrip (toks.getD (ci - 1) "")
        if ¬ (cand == "") && ¬ reDATE cand && ¬ reDT cand then
          fset fA "Catégorie" (some cand)
        else fA
      else fA
    if 2 < ci then
      let desc := pyStrip (joinSemi ((toks.drop 1).take (ci - 2)))
      fset fB "Description" (emptyToNone desc)
    else if 1 < toks.length then
      fset fB "Description" (emptyToNone (pyStrip (toks.getD 1 "")))
    else fB
  | none =>
    if 1 < toks.length then fset f "Description" (emptyToNone (pyStrip (toks.getD 1 "")))
    else f

/-- The direct `Adresse` / `Bâtiment/Équipement` assignments around the
due-date anchor (`addr_i = echeance_idx - 1`, `bat_i = echeance_idx - 2`,
both with the `0 <= i < len(toks)` bound checks of the source). -/
def phAddrBat (toks : List String) (echIdx? : Option Nat) (f : FieldMap) : FieldMap :=
  match echIdx? with
  | some ei =>
    let fA :=
      if 1 ≤ ei && ei - 1 < toks.length then
        let cand := pyStrip (toks.getD (ei - 1) "")
        if ¬ (cand == "") && looks_like_address cand then fset f "Adresse" (some cand)
        else f
      else f
    if 2 ≤ ei && ei - 2 < toks.length then
      let cand := pyStrip (toks.getD (ei - 2) "")
      if ¬ (cand == "") && ¬ looks_like_betterstreet_id cand && ¬ looks_like_address cand
          && ¬ reDATE cand && ¬ reDT cand then
        fset fA "Bâtiment/Équipement" (some cand)
      else fA
    else fA
  | none => f

/-- Fallback `Adresse` scan over every token. -/
def phAddrScan (toks : List String) (f : FieldMap) : FieldMap :=
  if ¬ getTruthy f "Adresse" then
    match toks.find? looks_like_address with
    | some t => fset f "Adresse" (some (pyStrip t))
    | none => f
  else f

/-- Shared filter of the building backward scan and the instruction scan:
first stripped token that is non-empty, not an id, not address-like, not a
date, not a datetime, and not equal to the (truthy) description. -/
def firstTextCand (descr : Option String) : List String → Option String
  | [] => none
  | tokn :: rest =>
    let t := pyStrip tokn
    if t == "" then firstTextCand descr rest
    else if looks_like_betterstreet_id t || looks_like_address t || reDATE t || reDT t then
      firstTextCand descr rest
    else if (match descr with
             | some dsc => ¬ (dsc == "") && t == dsc
             | none => false) then firstTextCand descr rest
    else some t

/-- `range(addr_pos - 1, max(-1, addr_pos - 8), -1)` as a list of indices
(all non-negative, at most seven, descending from `addr_pos - 1`). -/
def backWindow (addrPos : Nat) : List Nat :=
  (List.range (min addrPos 7)).map fun k => addrPos - 1 - k

/-- Fallback `Bâtiment/Équipement` backward scan before the address token. -/
def phBatScan (toks : List String) (f : FieldMap) : FieldMap :=
  if getTruthy f "Bâtiment/Équipement" then f
  else
    match fget f "Adresse" with
    | some addr =>
      if addr == "" then f
      else
        match toks.findIdx? (fun t => pyStrip t == pyStrip addr) with
        | some addrPos =>
          match firstTextCand (fget f "Description")
              ((backWindow addrPos).map fun j => toks.getD j "") with
          | some cand => fset f "Bâtiment/Équipement" (some cand)
          | none => f
        | none => f
    | none => f

/-- `Consigne`: last significant textual token after the agents index. -/
def phConsigne (toks : List String) (agentsIdx? : Option Nat) (f : FieldMap) : FieldMap :=
  match agentsIdx? with
  | some ai =>
    if ai + 1 < toks.length then
      match firstTextCand (fget f "Description") (toks.drop (ai + 1)).reverse with
      | some t => fset f "Consigne" (some t)
      | none => f
    else f
  | none => f

/-- Indices of non-empty tokens matching `RE_DT`. -/
def dtIdxsOf (toks : List String) : List Nat :=
  idxsWhere (fun t => ¬ (t == "") && reDT t) toks

/-- Indices of non-empty tokens matching `RE_DATE`. -/
def dateIdxsOf (toks : List String) : List Nat :=
  idxsWhere (fun t => ¬ (t == "") && reDATE t) toks

/-- `start_idx`: second-to-last datetime-token index, when at least two exist. -/
def startIdxOf (toks : List String) : Option Nat :=
  if 2 ≤ (dtIdxsOf toks).length then
    some ((dtIdxsOf toks).getD ((dtIdxsOf toks).length - 2) 0)
  else none

/-- `end_idx`: last datetime-token index, when at least two exist. -/
def endIdxOf (toks : List String) : Option Nat :=
  if 2 ≤ (dtIdxsOf toks).length then
    some ((dtIdxsOf toks).getD ((dtIdxsOf toks).length - 1) 0)
  else none

/-- The `(created_idx, echeance_idx)` pair of a token list. -/
def createdEchOf (toks : List String) : Option Nat × Option Nat :=
  createdEch (startIdxOf toks) (dateIdxsOf toks)

/-- The `agents_idx` of a token list. -/
def agentsIdxTok (toks : List String) : Option Nat :=
  agentsIdxOf toks.length (endIdxOf toks) (createdEchOf toks).2

/-- Assignment of one token field at an optional anchor index
(`f[key] = toks[i] or None` guarded by `i is not None`). -/
def phSet (key : String) (idx? : Option Nat) (toks : List String) (f : FieldMap) : FieldMap :=
  match idx? with
  | some i => fset f key (emptyToNone (toks.getD i ""))
  | none => f

/-- The heuristic (anchor-based) field map of `extract_fields`, phase by
phase in source order. -/
def heuristicFields (header_cols : List String) (toks : List String) (rid : String) :
    FieldMap :=
  let f1 := fset (initFields header_cols) "ID" (some rid)
  let f2 := phCreated toks (createdEchOf toks).1 f1
  let f3 := phSet "Échéance" (createdEchOf toks).2 toks f2
  let f4 := phSet "Début planification" (startIdxOf toks) toks f3
  let f5 := phSet "Fin planification" (endIdxOf toks) toks f4
  let f6 := phSet "Agents/Équipes" (agentsIdxTok toks) toks f5
  let f7 := phAddrBat toks (createdEchOf toks).2 f6
  let f8 := phAddrScan toks f7
  let f9 := phBatScan toks f8
  phConsigne toks (agentsIdxTok toks) f9

/-- The aligned field map: `dict(zip(header_cols, toks))` with empty strings
normalised to `None`. -/
def alignedFields (header_cols : List String) (toks : List String) : FieldMap :=
  fromPairs ((header_cols.zip toks).map fun p => (p.1, emptyToNone p.2))

/-- `extract_fields(record_line, header_cols, delimiter)` of the source. -/
def extract_fields (record_line : String) (header_cols : List String) (delim : Char) :
    Option ExtractResult :=
  let toks := toksOf delim record_line
  if toks.isEmpty then none
  else
    let rid := ridOf delim record_line
    if ¬ startsBE rid then none
    else if toks.length == header_cols.length then
      some ⟨alignedFields header_cols toks, true⟩
    else
      some ⟨heuristicFields header_cols toks rid, false⟩

end BS

namespace BS

/-! ### Temporal normalization, year filter and anomaly classification
(the per-record body of `main`) -/

/-- A `NormalizedRecord` row of the `records` list built by `main`.
`duree` holds the signed duration in seconds (the source stores
`str(timedelta)`, an injective rendering of the same value). -/
structure NRec where
  id : Option String
  description : Option String
  categorie : Option String
  batiment : Option String
  adresse : Option String
  startDt : Option PyDateTime
  endDtCorr : Option PyDateTime
  consigne : Option String
  agents : Option String
  duree : Option Int
deriving DecidableEq, Repr

/-- An `AnomalyEntry` row of the `anomalies` list built by `main`.
`endCorr` holds the corrected end datetime (the source stores its
`strftime` rendering). -/
structure AnomE where
  id : Option String
  startRaw : Option String
  endRaw : Option String
  endCorr : Option PyDateTime
  duree : Option Int
  notes : String
deriving DecidableEq, Repr

/-- One `try: parse_dt(...) except` block of `main`: parse when non-empty,
turn a raised error into a note tagged with the field name. -/
def parsePair (tag : String) (raw : Option String) : Option PyDateTime × List String :=
  if ¬ isEmptyO raw then
    match parse_dt (raw.getD "") with
    | .ok dt => (some dt, [])
    | .error e => (none, [tag ++ e])
  else (none, [])

/-- Parsed start datetime of a field map (`start_dt` in `main`). -/
def parsedStartOf (f : FieldMap) : Option PyDateTime :=
  (parsePair "Start parse error: " (fget f "Début planification")).1

/-- Parsed end datetime of a field map (`end_dt` in `main`). -/
def parsedEndOf (f : FieldMap) : Option PyDateTime :=
  (parsePair "End parse error: " (fget f "Fin planification")).1

/-- Parsed created date of a field map (`created_date` in `main`). -/
def parsedCreatedOf (f : FieldMap) : Option PyDate :=
  let createdRaw := fget f "Créé le"
  if ¬ isEmptyO createdRaw then parse_date_only (createdRaw.getD "") else none

/-- The year filter of `main`: planned-in-year when a planning timestamp
parsed, else created-in-year. -/
def keepDecision (startDt endDt : Option PyDateTime) (createdDate : Option PyDate)
    (year : Nat) : Bool :=
  let plannedInYear := in_year startDt year || in_year endDt year
  let createdInYear :=
    match createdDate with
    | some d => d.year == year
    | none => false
  let hasPlanning := startDt.isSome || endDt.isSome
  if hasPlanning then plannedInYear else createdInYear

/-- The parse / missing notes of a field map, in source append order. -/
def missNotesOf (f : FieldMap) : List String :=
  (if (parsedStartOf f).isNone then ["Start missing"] else []) ++
  (if (parsedEndOf f).isNone then ["End missing"] else []) ++
  (if isEmptyO (fget f "Agents/Équipes") then ["Agents/Équipes missing"] else [])

/-- The 12-hour correction of `main`: corrected end and its note. -/
def corrPairOf (f : FieldMap) : Option PyDateTime × List String :=
  match parsedStartOf f, parsedEndOf f with
  | some sd, some ed =>
    if dtLt ed sd then
      (some (addHours12 ed), ["End time shifted +12h (12h ambiguity forced)"])
    else (some ed, [])
  | _, ed? => (ed?, [])

/-- `end_dt_corrected` of `main`. -/
def endCorrOf (f : FieldMap) : Option PyDateTime := (corrPairOf f).1

/-- Duration (in seconds) and its still-negative note. -/
def durPairOf (f : FieldMap) : Option Int × List String :=
  match parsedStartOf f, endCorrOf f with
  | some sd, some ec =>
    (some ((toSecs ec : Int) - (toSecs sd : Int)),
     if (toSecs ec : Int) - (toSecs sd : Int) < 0 then
       ["Duration still negative after correction"] else [])
  | _, _ => (none, [])

/-- The complete notes list of a record, in source append order. -/
def notesOf (f : FieldMap) : List String :=
  (parsePair "Start parse error: " (fget f "Début planification")).2 ++
  (parsePair "End parse error: " (fget f "Fin planification")).2 ++
  missNotesOf f ++ (corrPairOf f).2 ++ (durPairOf f).2

/-- `notes_joined` of `main`. -/
def notesJoinedOf (f : FieldMap) : String := joinNotes (notesOf f)

/-- The anomaly trigger of `main` (substring tests on the joined notes). -/
def anomalyTriggered (f : FieldMap) : Bool :=
  strContains (notesJoinedOf f) "parse error" ||
  strContains (notesJoinedOf f) "missing" ||
  strContains (notesJoinedOf f) "End time shifted +12h" ||
  strContains (notesJoinedOf f) "Duration still negative"

/-- The `NormalizedRecord` row built from a field map. -/
def recOf (f : FieldMap) : NRec :=
  ⟨fget f "ID", fget f "Description", fget f "Catégorie",
   fget f "Bâtiment/Équipement", fget f "Adresse", parsedStartOf f, endCorrOf f,
   fget f "Consigne", fget f "Agents/Équipes", (durPairOf f).1⟩

/-- The `AnomalyEntry` row built from a field map. -/
def anomOf (f : FieldMap) : AnomE :=
  ⟨fget f "ID", fget f "Début planification", fget f "Fin planification",
   endCorrOf f, (durPairOf f).1, notesJoinedOf f⟩

/-- The per-record body of the loop in `main`: extraction, parsing, year
filter, 12-hour correction, duration, anomaly classification.  Returns `none`
when the record is dropped (no valid id) or filtered out (other year);
otherwise the `NormalizedRecord` and the optional `AnomalyEntry`. -/
def processLine (headerCols : List String) (year : Nat) (recordLine : String) :
    Option (NRec × Option AnomE) :=
  match extract_fields recordLine headerCols ';' with
  | none => none
  | some ex =>
    if keepDecision (parsedStartOf ex.fields) (parsedEndOf ex.fields)
        (parsedCreatedOf ex.fields) year then
      some (recOf ex.fields,
            if anomalyTriggered ex.fields then some (anomOf ex.fields) else none)
    else none

/-- The in-scope part of `main`: rebuild the records, fail when nothing was
rebuilt, split the header, and process each record line.  Sorting, spreadsheet
rendering and console reporting are out-of-scope collaborators. -/
def pipeline (lines : List String) (year : Nat) :
    Except String (List NRec × List AnomE) :=
  match rebuild_records_by_id lines ';' with
  | [] => .error "Aucune ligne reconstruite (CSV vide ?)."
  | header :: recLines =>
    let headerCols := (pySplit ';' header).map pyStrip
    let results := recLines.filterMap (processLine headerCols year)
    .ok (results.map Prod.fst, results.filterMap Prod.snd)

end BS

deriving instance DecidableEq for Except

namespace BS

/-! ### Dictionary lemmas -/

theorem fget_fset_self (m : FieldMap) (k : String) (v : Option String) :
    fget (fset m k v) k = v := by
  induction m with
  | nil => simp [fset, fget]
  | cons p rest ih =>
    by_cases h : p.1 == k
    · simp [fset, fget, h]
    · simp [fset, fget, h, ih]

theorem fget_fset_ne (m : FieldMap) (k k' : String) (v : Option String)
    (h : k' ≠ k) : fget (fset m k v) k' = fget m k' := by
  have hkk : (k == k') = false := beq_eq_false_iff_ne.mpr (Ne.symm h)
  induction m with
  | nil => simp [fset, fget, hkk]
  | cons p rest ih =>
    by_cases hp : p.1 == k
    · have hp' : p.1 = k := by simpa using hp
      have hpk : (p.1 == k') = false := by
        rw [hp']; exact hkk
      simp [fset, fget, hp, hpk, hkk]
    · by_cases hq : p.1 == k'
      · simp [fset, fget, hp, hq]
      · simp [fset, fget, hp, hq, ih]

theorem fset_values_none (m : FieldMap) (k : String)
    (hm : ∀ q ∈ m, q.2 = (none : Option String)) :
    ∀ q ∈ fset m k none, q.2 = (none : Option String) := by
  induction m with
  | nil =>
    intro q hq
    simp [fset] at hq
    simp [hq]
  | cons p rest ih =>
    intro q hq
    by_cases hp : p.1 == k
    · simp [fset, hp] at hq
      rcases hq with hq | hq
      · simp [hq]
      · exact hm q (by simp [hq])
    · simp [fset, hp] at hq
      rcases hq with hq | hq
      · exact hm q (by simp [hq])
      · exact ih (fun q hq => hm q (by simp [hq])) q hq

theorem fget_values_none (m : FieldMap) (k : String)
    (hm : ∀ q ∈ m, q.2 = (none : Option String)) : fget m k = none := by
  induction m with
  | nil => simp [fget]
  | cons p rest ih =>
    by_cases hp : p.1 == k
    · simpa [fget, hp] using hm p (by simp)
    · rw [show fget (p :: rest) k = fget rest k from by simp [fget, hp]]
      exact ih (fun q hq => hm q (by simp [hq]))

theorem initFields_values_none (cols : List String) :
    ∀ q ∈ initFields cols, q.2 = (none : Option String) := by
  have main : ∀ (ps : List String) (acc : FieldMap),
      (∀ q ∈ acc, q.2 = (none : Option String)) →
      ∀ q ∈ (ps.map fun k => ((k : String), (none : Option String))).foldl
        (fun m p => fset m p.1 p.2) acc, q.2 = (none : Option String) := by
    intro ps
    induction ps with
    | nil => intro acc hacc q hq; exact hacc q hq
    | cons c cs ih =>
      intro acc hacc q hq
      exact ih (fset acc c none) (fset_values_none acc c hacc) q hq
  intro q hq
  exact main cols [] (by simp) q hq

theorem fget_initFields (cols : List String) (k : String) :
    fget (initFields cols) k = none :=
  fget_values_none _ _ (initFields_values_none cols)

/-! ### Substring lemmas -/

theorem isPrefixOf_append {p l : List Char} (l' : List Char)
    (h : p.isPrefixOf l = true) : p.isPrefixOf (l ++ l') = true := by
  induction p generalizing l with
  | nil => simp only [List.isPrefixOf]
  | cons c cs ih =>
    cases l with
    | nil => exact absurd h (by simp [List.isPrefixOf])
    | cons d ds =>
      rw [List.cons_append]
      simp only [List.isPrefixOf, Bool.and_eq_true] at h ⊢
      exact ⟨h.1, ih h.2⟩

theorem isSubB_append_right {p l : List Char} (l' : List Char)
    (h : isSubB p l = true) : isSubB p (l ++ l') = true := by
  induction l with
  | nil =>
    simp only [isSubB, List.isEmpty_iff] at h
    subst h
    cases l' with
    | nil => rfl
    | cons c cs => simp [isSubB, List.isPrefixOf]
  | cons c cs ih =>
    simp only [isSubB, Bool.or_eq_true] at h
    rw [List.cons_append]
    simp only [isSubB, Bool.or_eq_true]
    rcases h with h | h
    · exact Or.inl (isPrefixOf_append l' h)
    · exact Or.inr (ih h)

theorem isSubB_append_left {p l : List Char} (l' : List Char)
    (h : isSubB p l = true) : isSubB p (l' ++ l) = true := by
  induction l' with
  | nil => simpa using h
  | cons c cs ih =>
    rw [List.cons_append]
    simp only [isSubB, Bool.or_eq_true]
    exact Or.inr ih

theorem strContains_of_mem_joinNotes {notes : List String} {n : String}
    (hn : n ∈ notes) {pat : String} (hp : isSubB pat.data n.data = true) :
    strContains (joinNotes notes) pat = true := by
  induction notes with
  | nil => cases hn
  | cons m rest ih =>
    cases rest with
    | nil =>
      simp at hn
      subst hn
      simpa [strContains, joinNotes] using hp
    | cons m2 rest2 =>
      rcases List.mem_cons.mp hn with h | h
      · subst h
        have : (joinNotes (n :: m2 :: rest2)).data
            = n.data ++ (" | " ++ joinNotes (m2 :: rest2)).data := by
          simp [joinNotes]
        rw [strContains, this]
        exact isSubB_append_right _ hp
      · have hr := ih h
        have : (joinNotes (m :: m2 :: rest2)).data
            = (m ++ " | ").data ++ (joinNotes (m2 :: rest2)).data := by
          simp [joinNotes]
        rw [strContains, this]
        exact isSubB_append_left _ hr

end BS

namespace BS

/-! ### Calendar lemmas: the 12-hour shift advances `toSecs` by exactly
43200 seconds on valid datetimes -/

theorem daysBeforeMonth_succ (y m : Nat) (h : 1 ≤ m) :
    daysBeforeMonth y (m + 1) = daysBeforeMonth y m + daysInMonth y m := by
  match m, h with
  | m' + 1, _ => rfl

theorem daysBeforeMonth_13 (y : Nat) :
    daysBeforeMonth y 13 = 365 + (if isLeap y then 1 else 0) := by
  unfold daysBeforeMonth
  by_cases h : isLeap y = true
  · rw [h]; decide
  · rw [Bool.not_eq_true] at h; rw [h]; decide

theorem daysBeforeYear_succ (y : Nat) (h : 1 ≤ y) :
    daysBeforeYear (y + 1) = daysBeforeYear y + (if isLeap y then 366 else 365) := by
  have hy' : y - 1 + 1 = y := by omega
  have e4 := Nat.succ_div (y - 1) 4
  have e100 := Nat.succ_div (y - 1) 100
  have e400 := Nat.succ_div (y - 1) 400
  rw [hy'] at e4 e100 e400
  have hiff : (isLeap y = true) ↔ ((y % 4 = 0 ∧ ¬ (y % 100 = 0)) ∨ y % 400 = 0) := by
    simp [isLeap]
  unfold daysBeforeYear
  simp only [hiff, Nat.add_sub_cancel]
  by_cases h4 : (4 : Nat) ∣ y
  · by_cases h100 : (100 : Nat) ∣ y
    · by_cases h400 : (400 : Nat) ∣ y
      · rw [if_pos h4] at e4; rw [if_pos h100] at e100; rw [if_pos h400] at e400
        rw [if_pos (by omega : (y % 4 = 0 ∧ ¬ (y % 100 = 0)) ∨ y % 400 = 0)]
        rw [e4, e100, e400]
        omega
      · rw [if_pos h4] at e4; rw [if_pos h100] at e100; rw [if_neg h400] at e400
        rw [if_neg (by omega : ¬ ((y % 4 = 0 ∧ ¬ (y % 100 = 0)) ∨ y % 400 = 0))]
        rw [e4, e100, e400]
        omega
    · have h400 : ¬ (400 : Nat) ∣ y := fun hc => h100 (dvd_trans (by norm_num) hc)
      rw [if_pos h4] at e4; rw [if_neg h100] at e100; rw [if_neg h400] at e400
      rw [if_pos (by omega : (y % 4 = 0 ∧ ¬ (y % 100 = 0)) ∨ y % 400 = 0)]
      rw [e4, e100, e400]
      omega
  · have h100 : ¬ (100 : Nat) ∣ y := fun hc => h4 (dvd_trans (by norm_num) hc)
    have h400 : ¬ (400 : Nat) ∣ y := fun hc => h4 (dvd_trans (by norm_num) hc)
    rw [if_neg h4] at e4; rw [if_neg h100] at e100; rw [if_neg h400] at e400
    rw [if_neg (by omega : ¬ ((y % 4 = 0 ∧ ¬ (y % 100 = 0)) ∨ y % 400 = 0))]
    rw [e4, e100, e400]
    omega

theorem monthDays_le_31 (leap : Bool) (m : Nat) : monthDays leap m ≤ 31 := by
  unfold monthDays
  split <;> first | omega | (split <;> omega)

theorem dayIndex_nextDay (dt : PyDateTime) (hv : validDT dt = true) :
    dayIndex (nextDay dt) = dayIndex dt + 1 := by
  simp only [validDT, Bool.and_eq_true, decide_eq_true_eq] at hv
  obtain ⟨⟨⟨⟨⟨⟨⟨⟨hy1, _⟩, hm1⟩, hm2⟩, hd1⟩, hd2⟩, _⟩, _⟩, _⟩ := hv
  unfold nextDay
  split
  · next hlt =>
    simp only [dayIndex]
    omega
  · next hge =>
    split
    · next hm12 =>
      have hsucc := daysBeforeMonth_succ dt.year dt.month hm1
      simp only [dayIndex]
      omega
    · next hm12 =>
      have hm : dt.month = 12 := by omega
      have hdim : daysInMonth dt.year 12 = 31 := rfl
      have hsucc : daysBeforeMonth dt.year 13 = daysBeforeMonth dt.year 12 + 31 := by
        have h' := daysBeforeMonth_succ dt.year 12 (by omega)
        rw [hdim] at h'
        simpa using h'
      have h13 := daysBeforeMonth_13 dt.year
      have hy := daysBeforeYear_succ dt.year hy1
      have h1 : daysBeforeMonth (dt.year + 1) 1 = 0 := rfl
      simp only [dayIndex]
      rw [hm] at hge hd2 ⊢
      by_cases hb : isLeap dt.year = true
      · rw [if_pos hb] at h13 hy
        omega
      · rw [if_neg hb] at h13 hy
        omega

theorem nextDay_time (dt : PyDateTime) :
    (nextDay dt).hour = dt.hour ∧ (nextDay dt).minute = dt.minute ∧
    (nextDay dt).second = dt.second := by
  unfold nextDay
  split
  · exact ⟨rfl, rfl, rfl⟩
  · split
    · exact ⟨rfl, rfl, rfl⟩
    · exact ⟨rfl, rfl, rfl⟩

theorem toSecs_addHours12 (dt : PyDateTime) (hv : validDT dt = true) :
    toSecs (addHours12 dt) = toSecs dt + 43200 := by
  unfold addHours12
  split
  · next hlt =>
    simp only [toSecs, dayIndex]
    omega
  · next hge =>
    have hv' : validDT { dt with hour := dt.hour + 12 - 24 } = true := by
      simp only [validDT, Bool.and_eq_true, decide_eq_true_eq] at hv ⊢
      obtain ⟨⟨⟨⟨⟨⟨⟨⟨hy1, hy2⟩, hm1⟩, hm2⟩, hd1⟩, hd2⟩, hh⟩, hmi⟩, hs⟩ := hv
      refine ⟨⟨⟨⟨⟨⟨⟨⟨hy1, hy2⟩, hm1⟩, hm2⟩, hd1⟩, hd2⟩, by omega⟩, hmi⟩, hs⟩
    have hidx := dayIndex_nextDay { dt with hour := dt.hour + 12 - 24 } hv'
    have htime := nextDay_time { dt with hour := dt.hour + 12 - 24 }
    have hh : dt.hour ≤ 23 := by
      simp only [validDT, Bool.and_eq_true, decide_eq_true_eq] at hv
      exact hv.1.1.2
    have hidx' : dayIndex { dt with hour := dt.hour + 12 - 24 } = dayIndex dt := rfl
    simp only [toSecs]
    rw [hidx, hidx', htime.1, htime.2.1, htime.2.2]
    simp only
    omega

theorem mkDT_valid {p : Parsed} {dt : PyDateTime} (h : mkDT p = some dt) :
    validDT dt = true := by
  simp only [mkDT] at h
  split at h
  · next hval =>
    cases h
    exact hval
  · simp at h

theorem strptime_valid {fmt : List Dir} {cs : List Char} {dt : PyDateTime}
    (h : strptime fmt cs = some dt) : validDT dt = true := by
  unfold strptime at h
  cases hr : runDirs fmt cs {} with
  | none => rw [hr] at h; simp at h
  | some p =>
    rw [hr] at h
    exact mkDT_valid (by simpa using h)

theorem tryFormats_valid {fmts : List (List Dir)} {cs : List Char} {dt : PyDateTime}
    (h : tryFormats fmts cs = some dt) : validDT dt = true := by
  induction fmts with
  | nil => simp [tryFormats] at h
  | cons f fs ih =>
    simp only [tryFormats] at h
    cases hf : strptime f cs with
    | some d =>
      rw [hf] at h
      cases h
      exact strptime_valid hf
    | none =>
      rw [hf] at h
      exact ih h

theorem parse_dt_valid {s : String} {dt : PyDateTime}
    (h : parse_dt s = .ok dt) : validDT dt = true := by
  unfold parse_dt at h
  cases ht : tryFormats DT_FORMATS (pyStrip s).data with
  | some d =>
    rw [ht] at h
    cases h
    exact tryFormats_valid ht
  | none => rw [ht] at h; simp at h

end BS

namespace BS

/-! ### Phase-preservation lemmas for `extract_fields` -/

theorem fget_phCreated_ne (toks : List String) (ci : Option Nat) (f : FieldMap)
    (k : String) (h1 : k ≠ "Créé le") (h2 : k ≠ "Catégorie") (h3 : k ≠ "Description") :
    fget (phCreated toks ci f) k = fget f k := by
  unfold phCreated
  repeat'
    first
      | rfl
      | split
      | simp [fget_fset_ne _ _ _ _ h1, fget_fset_ne _ _ _ _ h2,
    fget_fset_ne _ _ _ _ h3]

theorem fget_phAddrBat_ne (toks : List String) (ei : Option Nat) (f : FieldMap)
    (k : String) (h1 : k ≠ "Adresse") (h2 : k ≠ "Bâtiment/Équipement") :
    fget (phAddrBat toks ei f) k = fget f k := by
  unfold phAddrBat
  repeat'
    first
      | rfl
      | split
      | simp [fget_fset_ne _ _ _ _ h1, fget_fset_ne _ _ _ _ h2]

theorem fget_phAddrScan_ne (toks : List String) (f : FieldMap)
    (k : String) (h1 : k ≠ "Adresse") :
    fget (phAddrScan toks f) k = fget f k := by
  unfold phAddrScan
  repeat'
    first
      | rfl
      | split
      | simp [fget_fset_ne _ _ _ _ h1]

theorem fget_phBatScan_ne (toks : List String) (f : FieldMap)
    (k : String) (h2 : k ≠ "Bâtiment/Équipement") :
    fget (phBatScan toks f) k = fget f k := by
  unfold phBatScan
  repeat'
    first
      | rfl
      | split
      | simp [fget_fset_ne _ _ _ _ h2]

theorem fget_phConsigne_ne (toks : List String) (ai : Option Nat) (f : FieldMap)
    (k : String) (h1 : k ≠ "Consigne") :
    fget (phConsigne toks ai f) k = fget f k := by
  unfold phConsigne
  repeat'
    first
      | rfl
      | split
      | simp [fget_fset_ne _ _ _ _ h1]

end BS

namespace BS

theorem fget_phSet_ne (key : String) (idx? : Option Nat) (toks : List String)
    (f : FieldMap) (k : String) (h : k ≠ key) :
    fget (phSet key idx? toks f) k = fget f k := by
  unfold phSet
  cases idx? with
  | none => rfl
  | some i => exact fget_fset_ne _ _ _ _ h

theorem phSet_none (key : String) (toks : List String) (f : FieldMap) :
    phSet key none toks f = f := rfl

theorem phConsigne_none (toks : List String) (f : FieldMap) :
    phConsigne toks none f = f := rfl

theorem phAddrBat_none (toks : List String) (f : FieldMap) :
    phAddrBat toks none f = f := rfl

theorem phAddrScan_no_address (toks : List String) (f : FieldMap)
    (h : ∀ t ∈ toks, looks_like_address t = false) :
    phAddrScan toks f = f := by
  unfold phAddrScan
  have hf : toks.find? looks_like_address = none :=
    List.find?_eq_none.mpr (by intro x hx; simp [h x hx])
  rw [hf]
  split <;> rfl

theorem phBatScan_no_address (toks : List String) (f : FieldMap)
    (h : fget f "Adresse" = none) :
    phBatScan toks f = f := by
  unfold phBatScan
  rw [h]
  split <;> rfl

/-- The heuristic map always carries `ID = rid`. -/
theorem fget_heuristicFields_ID (header_cols toks : List String) (rid : String) :
    fget (heuristicFields header_cols toks rid) "ID" = some rid := by
  unfold heuristicFields
  rw [fget_phConsigne_ne _ _ _ _ (by decide), fget_phBatScan_ne _ _ _ (by decide),
    fget_phAddrScan_ne _ _ _ (by decide), fget_phAddrBat_ne _ _ _ _ (by decide) (by decide),
    fget_phSet_ne _ _ _ _ _ (by decide), fget_phSet_ne _ _ _ _ _ (by decide),
    fget_phSet_ne _ _ _ _ _ (by decide), fget_phSet_ne _ _ _ _ _ (by decide),
    fget_phCreated_ne _ _ _ _ (by decide) (by decide) (by decide), fget_fset_self]

end BS

namespace BS

/-- With no due-date anchor, no address-like token and no agents anchor, the
heuristic `Adresse` stays absent through every phase. -/
theorem fget_heuristicFields_addr_none (header_cols toks : List String) (rid : String)
    (hech : (createdEchOf toks).2 = none)
    (haddr : ∀ t ∈ toks, looks_like_address t = false) :
    fget (heuristicFields header_cols toks rid) "Adresse" = none := by
  simp only [heuristicFields]
  rw [hech, phAddrBat_none, phAddrScan_no_address _ _ haddr]
  rw [fget_phConsigne_ne _ _ _ _ (by decide), fget_phBatScan_ne _ _ _ (by decide),
    fget_phSet_ne _ _ _ _ _ (by decide), fget_phSet_ne _ _ _ _ _ (by decide),
    fget_phSet_ne _ _ _ _ _ (by decide), fget_phSet_ne _ _ _ _ _ (by decide),
    fget_phCreated_ne _ _ _ _ (by decide) (by decide) (by decide),
    fget_fset_ne _ _ _ _ (by decide), fget_initFields]

/-- Under the same hypotheses the building/equipment field stays absent. -/
theorem fget_heuristicFields_bat_none (header_cols toks : List String) (rid : String)
    (hech : (createdEchOf toks).2 = none)
    (haddr : ∀ t ∈ toks, looks_like_address t = false) :
    fget (heuristicFields header_cols toks rid) "Bâtiment/Équipement" = none := by
  have haddrget : fget (phAddrScan toks (phAddrBat toks (createdEchOf toks).2
      (phSet "Agents/Équipes" (agentsIdxTok toks) toks
        (phSet "Fin planification" (endIdxOf toks) toks
          (phSet "Début planification" (startIdxOf toks) toks
            (phSet "Échéance" (createdEchOf toks).2 toks
              (phCreated toks (createdEchOf toks).1
                (fset (initFields header_cols) "ID" (some rid))))))))) "Adresse" = none := by
    rw [hech, phAddrBat_none, phAddrScan_no_address _ _ haddr]
    rw [fget_phSet_ne _ _ _ _ _ (by decide), fget_phSet_ne _ _ _ _ _ (by decide),
      fget_phSet_ne _ _ _ _ _ (by decide), fget_phSet_ne _ _ _ _ _ (by decide),
      fget_phCreated_ne _ _ _ _ (by decide) (by decide) (by decide),
      fget_fset_ne _ _ _ _ (by decide), fget_initFields]
  simp only [heuristicFields]
  rw [fget_phConsigne_ne _ _ _ _ (by decide), phBatScan_no_address _ _ haddrget]
  rw [hech, phAddrBat_none, phAddrScan_no_address _ _ haddr]
  rw [fget_phSet_ne _ _ _ _ _ (by decide), fget_phSet_ne _ _ _ _ _ (by decide),
    fget_phSet_ne _ _ _ _ _ (by decide), fget_phSet_ne _ _ _ _ _ (by decide),
    fget_phCreated_ne _ _ _ _ (by decide) (by decide) (by decide),
    fget_fset_ne _ _ _ _ (by decide), fget_initFields]

/-- With no agents anchor the instruction field stays absent. -/
theorem fget_heuristicFields_consigne_none (header_cols toks : List String) (rid : String)
    (hag : agentsIdxTok toks = none) :
    fget (heuristicFields header_cols toks rid) "Consigne" = none := by
  simp only [heuristicFields]
  rw [hag, phConsigne_none]
  rw [fget_phBatScan_ne _ _ _ (by decide), fget_phAddrScan_ne _ _ _ (by decide),
    fget_phAddrBat_ne _ _ _ _ (by decide) (by decide),
    phSet_none, fget_phSet_ne _ _ _ _ _ (by decide),
    fget_phSet_ne _ _ _ _ _ (by decide), fget_phSet_ne _ _ _ _ _ (by decide),
    fget_phCreated_ne _ _ _ _ (by decide) (by decide) (by decide),
    fget_fset_ne _ _ _ _ (by decide), fget_initFields]

end BS

namespace BS

/-! ### Characterizations of `extract_fields` -/

theorem splitC_ne_nil (d : Char) (l : List Char) : splitC d l ≠ [] := by
  cases l with
  | nil => simp [splitC]
  | cons c cs =>
    simp only [splitC]
    split
    · simp
    · split <;> simp

theorem toksOf_ne_nil (d : Char) (line : String) : (toksOf d line).isEmpty = false := by
  unfold toksOf pySplit
  cases hs : splitC d line.data with
  | nil => exact absurd hs (splitC_ne_nil d line.data)
  | cons h t => simp

theorem extract_fields_some_startsBE {line : String} {header : List String}
    {ex : ExtractResult} (h : extract_fields line header ';' = some ex) :
    startsBE (ridOf ';' line) = true := by
  simp only [extract_fields] at h
  rw [toksOf_ne_nil] at h
  simp only [Bool.false_eq_true, if_false] at h
  by_cases hs : startsBE (ridOf ';' line) = true
  · exact hs
  · rw [if_pos (by simpa using hs)] at h
    cases h

theorem extract_fields_eq_aligned {line : String} {header : List String}
    (h1 : startsBE (ridOf ';' line) = true)
    (h2 : (toksOf ';' line).length = header.length) :
    extract_fields line header ';' =
      some ⟨alignedFields header (toksOf ';' line), true⟩ := by
  simp only [extract_fields]
  rw [toksOf_ne_nil]
  simp only [Bool.false_eq_true, if_false]
  rw [if_neg (by simp [h1]), if_pos (by simpa using h2)]

theorem extract_fields_eq_heuristic {line : String} {header : List String}
    (h1 : startsBE (ridOf ';' line) = true)
    (h2 : (toksOf ';' line).length ≠ header.length) :
    extract_fields line header ';' =
      some ⟨heuristicFields header (toksOf ';' line) (ridOf ';' line), false⟩ := by
  simp only [extract_fields]
  rw [toksOf_ne_nil]
  simp only [Bool.false_eq_true, if_false]
  rw [if_neg (by simp [h1]), if_neg (by simpa using h2)]

theorem extract_fields_cases {line : String} {header : List String}
    {ex : ExtractResult} (h : extract_fields line header ';' = some ex) :
    (ex.aligned = true ∧ (toksOf ';' line).length = header.length ∧
      ex.fields = alignedFields header (toksOf ';' line)) ∨
    (ex.aligned = false ∧ (toksOf ';' line).length ≠ header.length ∧
      ex.fields = heuristicFields header (toksOf ';' line) (ridOf ';' line)) := by
  have hs := extract_fields_some_startsBE h
  by_cases hlen : (toksOf ';' line).length = header.length
  · rw [extract_fields_eq_aligned hs hlen] at h
    cases h
    exact Or.inl ⟨rfl, hlen, rfl⟩
  · rw [extract_fields_eq_heuristic hs hlen] at h
    cases h
    exact Or.inr ⟨rfl, hlen, rfl⟩

end BS

namespace BS

/-! ### The aligned map is the positional zip -/

theorem fset_eq_append (m : FieldMap) (k : String) (v : Option String)
    (h : ∀ q ∈ m, q.1 ≠ k) : fset m k v = m ++ [(k, v)] := by
  induction m with
  | nil => rfl
  | cons p rest ih =>
    have hp : ¬ (p.1 == k) := by simpa using h p (by simp)
    simp only [fset, hp, if_false, List.cons_append, Bool.false_eq_true]
    rw [ih (fun q hq => h q (by simp [hq]))]

theorem foldl_fset_eq_append (ps : List (String × Option String)) :
    ∀ acc : FieldMap, (ps.map Prod.fst).Nodup →
    (∀ q ∈ acc, ∀ p ∈ ps, q.1 ≠ p.1) →
    ps.foldl (fun m p => fset m p.1 p.2) acc = acc ++ ps := by
  induction ps with
  | nil => intro acc _ _; simp
  | cons p rest ih =>
    intro acc hnd hdisj
    simp only [List.foldl_cons]
    rw [fset_eq_append acc p.1 p.2 (fun q hq => hdisj q hq p (by simp))]
    have hnd' : (rest.map Prod.fst).Nodup := by
      simp only [List.map_cons, List.nodup_cons] at hnd
      exact hnd.2
    have hpnot : p.1 ∉ rest.map Prod.fst := by
      simp only [List.map_cons, List.nodup_cons] at hnd
      exact hnd.1
    rw [ih (acc ++ [p]) hnd' ?_]
    · simp
    · intro q hq r hr
      rcases List.mem_append.mp hq with h | h
      · exact hdisj q h r (by simp [hr])
      · have : q = p := by simpa using h
        subst this
        intro he
        apply hpnot
        rw [he]
        exact List.mem_map_of_mem Prod.fst hr

theorem fromPairs_nodup (ps : List (String × Option String))
    (h : (ps.map Prod.fst).Nodup) : fromPairs ps = ps :=
  (foldl_fset_eq_append ps [] h (by simp)).trans (by simp)

theorem fget_zipMap (ks vs : List String) (hnd : ks.Nodup) :
    ∀ i, i < ks.length → vs.length = ks.length →
    fget ((ks.zip vs).map fun p => (p.1, emptyToNone p.2)) (ks.getD i "") =
      emptyToNone (vs.getD i "") := by
  induction ks generalizing vs with
  | nil => intro i hi _; simp at hi
  | cons k ks ih =>
    intro i hi hlen
    cases vs with
    | nil => simp at hlen
    | cons v vs =>
      cases i with
      | zero => simp [fget]
      | succ n =>
        have hn : n < ks.length := by simpa using hi
        have hmem : ks.getD n "" ∈ ks := by
          rw [List.getD_eq_getElem ks "" hn]
          exact List.getElem_mem hn
        have hne : ¬ (k == ks.getD n "") := by
          simp only [List.nodup_cons] at hnd
          simp only [beq_iff_eq]
          intro he
          rw [he] at hnd
          exact hnd.1 hmem
        simp only [List.zip_cons_cons, List.map_cons, fget, hne, List.getD_cons_succ,
          Bool.false_eq_true, if_false]
        exact ih vs (by simp_all [List.nodup_cons]) n hn (by simpa using hlen)

theorem fget_alignedFields (header toks : List String) (hnd : header.Nodup)
    (hlen : toks.length = header.length) (i : Nat) (hi : i < header.length) :
    fget (alignedFields header toks) (header.getD i "") =
      emptyToNone (toks.getD i "") := by
  unfold alignedFields fromPairs
  have hkeys : (((header.zip toks).map fun p => (p.1, emptyToNone p.2)).map Prod.fst).Nodup := by
    have : ((header.zip toks).map fun p => (p.1, emptyToNone p.2)).map Prod.fst
        = (header.zip toks).map Prod.fst := by
      simp [List.map_map, Function.comp]
    rw [this, List.map_fst_zip header toks (by omega)]
    exact hnd
  rw [foldl_fset_eq_append _ [] hkeys (by simp)]
  simpa using fget_zipMap header toks hnd i hi hlen

end BS

namespace BS

/-! ### Claim theorems -/

/-- C1: for every logical record string whose cleaned first token starts with
the record-id prefix and whose token count equals the header column count,
`extract_fields` returns the positional zip of header names against tokens
(empty tokens becoming an absent value), tagged `aligned = true`; with
distinct header names every position maps to exactly its own token, so no
token is swapped, dropped or overwritten by any heuristic. -/
theorem aligned_extraction_is_exact_zip (line : String) (header : List String)
    (hBE : startsBE (ridOf ';' line) = true)
    (hlen : (toksOf ';' line).length = header.length) :
    extract_fields line header ';' =
      some ⟨alignedFields header (toksOf ';' line), true⟩ ∧
    (header.Nodup → ∀ i, i < header.length →
      fget (alignedFields header (toksOf ';' line)) (header.getD i "") =
        emptyToNone ((toksOf ';' line).getD i "")) := by
  refine ⟨extract_fields_eq_aligned hBE hlen, ?_⟩
  intro hnd i hi
  exact fget_alignedFields header (toksOf ';' line) hnd hlen i hi

theorem aligned_extraction_is_exact_zip_witness :
    startsBE (ridOf ';' "BE-1001-;Fuite toiture;;15-03-25") = true ∧
    (toksOf ';' "BE-1001-;Fuite toiture;;15-03-25").length =
      (["ID", "Description", "Catégorie", "Créé le"] : List String).length ∧
    extract_fields "BE-1001-;Fuite toiture;;15-03-25"
        ["ID", "Description", "Catégorie", "Créé le"] ';' =
      some ⟨alignedFields ["ID", "Description", "Catégorie", "Créé le"]
        (toksOf ';' "BE-1001-;Fuite toiture;;15-03-25"), true⟩ ∧
    fget (alignedFields ["ID", "Description", "Catégorie", "Créé le"]
        (toksOf ';' "BE-1001-;Fuite toiture;;15-03-25"))
      ((["ID", "Description", "Catégorie", "Créé le"] : List String).getD 2 "") =
      emptyToNone ((toksOf ';' "BE-1001-;Fuite toiture;;15-03-25").getD 2 "") :=
  ⟨by decide, by decide,
   (aligned_extraction_is_exact_zip "BE-1001-;Fuite toiture;;15-03-25"
     ["ID", "Description", "Catégorie", "Créé le"] (by decide) (by decide)).1,
   (aligned_extraction_is_exact_zip "BE-1001-;Fuite toiture;;15-03-25"
     ["ID", "Description", "Catégorie", "Créé le"] (by decide) (by decide)).2
     (by decide) 2 (by decide)⟩

/-- The record-start pattern as the specification words it: case-insensitive
`BE-` followed by one or more digits and the separator `-`.  (Written from the
spec sentence, for comparison with the reassembler's actual test.) -/
def specRecordStart (t : String) : Bool :=
  match t.data.map lowerC with
  | 'b' :: 'e' :: '-' :: rest =>
    let ds := rest.takeWhile Char.isDigit
    decide (1 ≤ ds.length) &&
      (match rest.drop ds.length with
       | '-' :: _ => true
       | _ => false)
  | _ => false

/-- C5 counterexample: the reassembler's record-start test is the
case-sensitive prefix test `startswith("BE-")`, not the case-insensitive
digits-and-separator pattern of the claim.  A lowercase line whose first token
matches the claimed pattern is merged into the previous record instead of
opening one, and a line with no digits after `BE-` opens a record although the
claimed pattern rejects it. -/
theorem reassembler_start_pattern_counterexample :
    specRecordStart (cleanTok (firstTok ';' "be-123-;x")) = true ∧
    rebuild_records_by_id ["H", "BE-1-;a", "be-123-;x"] ';' =
      ["H", "BE-1-;a be-123-;x"] ∧
    specRecordStart (cleanTok (firstTok ';' "BE-abc;y")) = false ∧
    rebuild_records_by_id ["H", "BE-abc;y"] ';' = ["H", "BE-abc;y"] := by
  decide

/-- C5 amended: for each non-blank line after the header, the Record
Reassembler strips the first delimiter-separated token of quotes and
byte-order-mark artifacts and opens a new record exactly when the cleaned
token starts (case-sensitively) with `BE-`, with no requirement of digits or
a further separator; otherwise the line is appended to the open record, or
discarded when none is open. -/
theorem reassembler_start_decision (delim : Char) (current : Option String)
    (l : String) (ls : List String) (hb : isBlank (stripNL l) = false) :
    rebuildLoop delim current (l :: ls) =
      if startsBE (cleanTok (firstTok delim (stripNL l))) then
        (match current with
         | some c => [c]
         | none => []) ++ rebuildLoop delim (some (stripNL l)) ls
      else
        match current with
        | none => rebuildLoop delim none ls
        | some c => rebuildLoop delim (some (c ++ " " ++ stripNL l)) ls := by
  simp only [rebuildLoop, hb, Bool.false_eq_true, if_false]

theorem reassembler_start_decision_witness :
    isBlank (stripNL "BE-9-;z") = false ∧
    rebuildLoop ';' (some "X") ["BE-9-;z"] = ["X", "BE-9-;z"] ∧
    rebuildLoop ';' (some "X") ["tail text"] = ["X tail text"] :=
  ⟨by decide,
   by rw [reassembler_start_decision ';' (some "X") "BE-9-;z" [] (by decide)]; decide,
   by rw [reassembler_start_decision ';' (some "X") "tail text" [] (by decide)]; decide⟩

theorem rebuildLoop_startsBE (delim : Char) :
    ∀ rest : List String,
    (∀ l ∈ rest, isBlank l = false ∧
      startsBE (cleanTok (firstTok delim l)) = true ∧ stripNL l = l) →
    (∀ c, rebuildLoop delim (some c) rest = c :: rest) ∧
      rebuildLoop delim none rest = rest := by
  intro rest
  induction rest with
  | nil => intro _; exact ⟨fun c => rfl, rfl⟩
  | cons l ls ih =>
    intro h
    obtain ⟨hb, hs, hn⟩ := h l (by simp)
    have iht := ih fun x hx => h x (by simp [hx])
    constructor
    · intro c
      simp only [rebuildLoop, hn, hb, hs, Bool.false_eq_true, if_false, if_true]
      rw [iht.1 l]
      rfl
    · simp only [rebuildLoop, hn, hb, hs, Bool.false_eq_true, if_false, if_true]
      rw [iht.1 l]
      rfl

/-- C6 counterexample: idempotence fails on input that is well-formed in the
claim's sense.  The line `be-123-;x` is non-blank, newline-free and starts
with a valid record id as the specification defines it (case-insensitive
`BE-` followed by digits and a separator, `specRecordStart`), yet the
reassembler's case-sensitive detector treats it as a continuation line: with
no record open it is discarded, so the output does not contain one logical
record per physical line. -/
theorem rebuild_idempotence_counterexample :
    (∀ l ∈ (["be-123-;x"] : List String),
      isBlank l = false ∧ specRecordStart (cleanTok (firstTok ';' l)) = true ∧
        stripNL l = l) ∧
    rebuild_records_by_id ["H", "be-123-;x"] ';' = ["H"] ∧
    rebuild_records_by_id ["H", "be-123-;x"] ';' ≠ ["H", "be-123-;x"] := by
  decide

/-- C6 amended: record reassembly is idempotent on already-well-formed input
when "starts with a valid record id" means the detector the code implements —
the cleaned first token starts, case-sensitively, with `BE-`, with no digit
requirement (the corrected reading of claim C5).  When the header is
non-blank and every following line is non-blank, newline-free and passes that
detector, `rebuild_records_by_id` returns exactly one logical record per
physical line, each unchanged, preceded by the header.  Under the
specification's case-insensitive digits-and-separator reading of "valid
record id" the property is false, per the counterexample. -/
theorem rebuild_idempotent_startsBE (header : String) (rest : List String)
    (hh : isBlank header = false) (hhn : stripNL header = header)
    (h : ∀ l ∈ rest, isBlank l = false ∧
      startsBE (cleanTok (firstTok ';' l)) = true ∧ stripNL l = l) :
    rebuild_records_by_id (header :: rest) ';' = header :: rest := by
  unfold rebuild_records_by_id
  have hd : (header :: rest).dropWhile isBlank = header :: rest := by
    rw [List.dropWhile_cons, hh]
    simp
  rw [hd]
  show stripNL header :: rebuildLoop ';' none rest = header :: rest
  rw [hhn]
  rw [(rebuildLoop_startsBE ';' rest h).2]

theorem rebuild_idempotent_startsBE_witness :
    isBlank "ID;Description" = false ∧
    stripNL "ID;Description" = "ID;Description" ∧
    (∀ l ∈ (["BE-123-;a", "BE-1234-;b"] : List String),
      isBlank l = false ∧ startsBE (cleanTok (firstTok ';' l)) = true ∧
        stripNL l = l) ∧
    rebuild_records_by_id ["ID;Description", "BE-123-;a", "BE-1234-;b"] ';' =
      ["ID;Description", "BE-123-;a", "BE-1234-;b"] :=
  ⟨by decide, by decide, by decide,
   rebuild_idempotent_startsBE "ID;Description" ["BE-123-;a", "BE-1234-;b"]
     (by decide) (by decide) (by decide)⟩

/-- Does the pipeline fail with the fatal empty-input error? -/
def isErr {α : Type} : Except String α → Bool
  | .error _ => true
  | .ok _ => false

/-- C9: the pipeline surfaces the fatal empty-input error exactly when the
Record Reassembler returns no record strings at all, and the reassembler
returns the empty list exactly for empty input or input of only blank
lines. -/
theorem empty_input_is_fatal (lines : List String) (year : Nat) :
    (isErr (pipeline lines year) = true ↔ rebuild_records_by_id lines ';' = []) ∧
    (rebuild_records_by_id lines ';' = [] ↔ ∀ l ∈ lines, isBlank l = true) := by
  constructor
  · unfold pipeline
    cases hr : rebuild_records_by_id lines ';' with
    | nil => simp [isErr]
    | cons h t => simp [isErr]
  · unfold rebuild_records_by_id
    cases hd : lines.dropWhile isBlank with
    | nil =>
      exact ⟨fun _ l hl => List.dropWhile_eq_nil_iff.mp hd l hl, fun _ => rfl⟩
    | cons h t =>
      constructor
      · intro he
        simp at he
      · intro hall
        have hnil : lines.dropWhile isBlank = [] :=
          List.dropWhile_eq_nil_iff.mpr fun x hx => hall x hx
        rw [hnil] at hd
        cases hd

theorem empty_input_is_fatal_witness :
    isErr (pipeline ["", "   "] 2025) = true ∧
    rebuild_records_by_id ([] : List String) ';' = [] :=
  ⟨(empty_input_is_fatal ["", "   "] 2025).1.mpr (by decide),
   (empty_input_is_fatal [] 2025).2.mpr (by decide)⟩

end BS

namespace BS

/-! ### `processLine` characterization -/

theorem processLine_some_parts {headerCols : List String} {year : Nat} {line : String}
    {rec : NRec} {anomOpt : Option AnomE}
    (hpl : processLine headerCols year line = some (rec, anomOpt)) :
    ∃ ex, extract_fields line headerCols ';' = some ex ∧ rec = recOf ex.fields ∧
      anomOpt = (if anomalyTriggered ex.fields then some (anomOf ex.fields) else none) ∧
      keepDecision (parsedStartOf ex.fields) (parsedEndOf ex.fields)
        (parsedCreatedOf ex.fields) year = true := by
  unfold processLine at hpl
  cases hex : extract_fields line headerCols ';' with
  | none => rw [hex] at hpl; cases hpl
  | some ex =>
    rw [hex] at hpl
    replace hpl : (if keepDecision (parsedStartOf ex.fields) (parsedEndOf ex.fields)
        (parsedCreatedOf ex.fields) year = true then
        some (recOf ex.fields,
          if anomalyTriggered ex.fields = true then some (anomOf ex.fields) else none)
      else none) = some (rec, anomOpt) := hpl
    by_cases hk : keepDecision (parsedStartOf ex.fields) (parsedEndOf ex.fields)
        (parsedCreatedOf ex.fields) year = true
    · rw [if_pos hk] at hpl
      simp only [Option.some.injEq, Prod.mk.injEq] at hpl
      exact ⟨ex, rfl, hpl.1.symm, hpl.2.symm, hk⟩
    · rw [if_neg hk] at hpl
      cases hpl

theorem tryFormats_eq_none {fmts : List (List Dir)} {cs : List Char}
    (h : ∀ fmt ∈ fmts, strptime fmt cs = none) : tryFormats fmts cs = none := by
  induction fmts with
  | nil => rfl
  | cons f fs ih =>
    simp only [tryFormats]
    rw [h f (by simp)]
    exact ih fun fmt hf => h fmt (by simp [hf])

theorem parsePair_of_error {tag : String} {raw : Option String} {e : String}
    (hne : isEmptyO raw = false) (herr : parse_dt (raw.getD "") = .error e) :
    parsePair tag raw = (none, [tag ++ e]) := by
  unfold parsePair
  rw [hne]
  simp only [Bool.false_eq_true, not_false_eq_true, if_true, herr]

theorem parsePair_fst_some_valid {tag : String} {raw : Option String} {dt : PyDateTime}
    (h : (parsePair tag raw).1 = some dt) : validDT dt = true := by
  unfold parsePair at h
  split at h
  · cases hp : parse_dt (raw.getD "") with
    | ok d =>
      rw [hp] at h
      simp only at h
      cases h
      exact parse_dt_valid hp
    | error e => rw [hp] at h; cases h
  · cases h

/-- `parsedStartOf` and `parsedEndOf` only return constructor-validated
datetimes. -/
theorem parsedStartOf_valid {f : FieldMap} {dt : PyDateTime}
    (h : parsedStartOf f = some dt) : validDT dt = true :=
  parsePair_fst_some_valid h

theorem parsedEndOf_valid {f : FieldMap} {dt : PyDateTime}
    (h : parsedEndOf f = some dt) : validDT dt = true :=
  parsePair_fst_some_valid h

/-- The year-membership rule the code implements: when at least one of the
parsed start or parsed (uncorrected) end exists, keep exactly when the target
year equals the year of the start or of the uncorrected end; otherwise keep
exactly when the created date parsed and carries the target year. -/
def amendedYearKeep (sd ed : Option PyDateTime) (cd : Option PyDate) (year : Nat) : Bool :=
  if sd.isSome || ed.isSome then in_year sd year || in_year ed year
  else
    match cd with
    | some d => d.year == year
    | none => false

theorem amendedYearKeep_eq_keepDecision (sd ed : Option PyDateTime)
    (cd : Option PyDate) (year : Nat) :
    amendedYearKeep sd ed cd year = keepDecision sd ed cd year := rfl

/-- The year rule as the claim words it: membership through the year of the
corrected end (after the 12-hour shift) or of the start.  (Written from the
claim sentence, for comparison with the code's rule.) -/
def claimYearKeep (sd ed : Option PyDateTime) (cd : Option PyDate) (year : Nat) : Bool :=
  let edCorr : Option PyDateTime :=
    match sd, ed with
    | some s, some e => if dtLt e s then some (addHours12 e) else some e
    | _, e? => e?
  if sd.isSome || ed.isSome then in_year sd year || in_year edCorr year
  else
    match cd with
    | some d => d.year == year
    | none => false

/-- C3 counterexample: a record whose start and uncorrected end lie in 2025
but whose corrected end (after the 12-hour shift) lies in 2026 is dropped by
the code when filtering for 2026, although the claim's rule (using the
corrected end) keeps it. -/
theorem year_filter_counterexample :
    parse_dt "31-12-25 23:00" = .ok ⟨2025, 12, 31, 23, 0, 0⟩ ∧
    parse_dt "31-12-25 13:00" = .ok ⟨2025, 12, 31, 13, 0, 0⟩ ∧
    addHours12 ⟨2025, 12, 31, 13, 0, 0⟩ = ⟨2026, 1, 1, 1, 0, 0⟩ ∧
    claimYearKeep (some ⟨2025, 12, 31, 23, 0, 0⟩) (some ⟨2025, 12, 31, 13, 0, 0⟩)
      none 2026 = true ∧
    processLine ["ID", "Début planification", "Fin planification"] 2026
      "BE-1-;31-12-25 23:00;31-12-25 13:00" = none := by
  decide

/-- C3 amended: a record is kept exactly when — with the parsed start and the
parsed, uncorrected end — at least one planning timestamp parsed and the
target year equals the year of the start or of that uncorrected end, falling
back to the year of the parsed created date when neither planning timestamp
parsed.  (The 12-hour correction happens after the filter and plays no role
in year membership.) -/
theorem year_filter_rule (headerCols : List String) (year : Nat) (line : String) :
    (processLine headerCols year line).isSome = true ↔
      ∃ ex, extract_fields line headerCols ';' = some ex ∧
        amendedYearKeep (parsedStartOf ex.fields) (parsedEndOf ex.fields)
          (parsedCreatedOf ex.fields) year = true := by
  unfold processLine
  cases hex : extract_fields line headerCols ';' with
  | none => simp
  | some ex =>
    by_cases hk : keepDecision (parsedStartOf ex.fields) (parsedEndOf ex.fields)
        (parsedCreatedOf ex.fields) year = true
    · simp [hk, amendedYearKeep_eq_keepDecision]
    · simp [hk, amendedYearKeep_eq_keepDecision]

theorem year_filter_rule_witness :
    (processLine ["ID", "Début planification", "Fin planification"] 2025
        "BE-1-;31-12-25 23:00;31-12-25 13:00").isSome = true ∧
    (∃ ex, extract_fields "BE-1-;31-12-25 23:00;31-12-25 13:00"
        ["ID", "Début planification", "Fin planification"] ';' = some ex ∧
      amendedYearKeep (parsedStartOf ex.fields) (parsedEndOf ex.fields)
        (parsedCreatedOf ex.fields) 2025 = true) :=
  ⟨by decide,
   (year_filter_rule ["ID", "Début planification", "Fin planification"] 2025
     "BE-1-;31-12-25 23:00;31-12-25 13:00").mp (by decide)⟩

end BS

namespace BS

/-- C7: when a non-empty start or end raw string matches none of the accepted
date-time formats, `parse_dt` fails with an error carrying the offending
(stripped) string; inside the record loop that failure — for the start field
and for the end field alike — is recorded as a `parse error` note on the
anomaly entry instead of being propagated (the record is still produced);
formats are tried in order with the first success winning; and the permissive
date-only parser returns an absent value instead of failing whenever no
date-only format matches. -/
theorem date_parse_error_recovery :
    (∀ s : String, (∀ fmt ∈ DT_FORMATS, strptime fmt (pyStrip s).data = none) →
      parse_dt s = .error ("Date/heure non reconnue: " ++ pyStrip s)) ∧
    (∀ (fmt : List Dir) (fmts : List (List Dir)) (cs : List Char) (dt : PyDateTime),
      strptime fmt cs = some dt → tryFormats (fmt :: fmts) cs = some dt) ∧
    (∀ (headerCols : List String) (year : Nat) (line : String) (ex : ExtractResult)
        (rec : NRec) (anomOpt : Option AnomE) (sr e : String),
      processLine headerCols year line = some (rec, anomOpt) →
      extract_fields line headerCols ';' = some ex →
      fget ex.fields "Début planification" = some sr →
      isEmptyO (some sr) = false →
      parse_dt sr = .error e →
      ∃ a, anomOpt = some a ∧ strContains a.notes "parse error" = true) ∧
    (∀ (headerCols : List String) (year : Nat) (line : String) (ex : ExtractResult)
        (rec : NRec) (anomOpt : Option AnomE) (er e : String),
      processLine headerCols year line = some (rec, anomOpt) →
      extract_fields line headerCols ';' = some ex →
      fget ex.fields "Fin planification" = some er →
      isEmptyO (some er) = false →
      parse_dt er = .error e →
      ∃ a, anomOpt = some a ∧ strContains a.notes "parse error" = true) ∧
    (∀ s : String, (∀ fmt ∈ DATE_ONLY_FORMATS, strptime fmt (pyStrip s).data = none) →
      parse_date_only s = none) := by
  refine ⟨?_, ?_, ?_, ?_, ?_⟩
  · intro s h
    unfold parse_dt
    rw [tryFormats_eq_none h]
  · intro fmt fmts cs dt h
    simp only [tryFormats]
    rw [h]
  · intro headerCols year line ex rec anomOpt sr e hpl hex hsr hne herr
    obtain ⟨ex', hex', hrec, hanom, hkeep⟩ := processLine_some_parts hpl
    rw [hex] at hex'
    cases hex'
    have hpp : parsePair "Start parse error: " (fget ex.fields "Début planification") =
        (none, ["Start parse error: " ++ e]) := by
      rw [hsr]
      exact parsePair_of_error hne (by simpa using herr)
    have hmem : ("Start parse error: " ++ e) ∈ notesOf ex.fields := by
      unfold notesOf
      rw [hpp]
      simp
    have hsub : isSubB "parse error".data ("Start parse error: " ++ e).data = true := by
      have : ("Start parse error: " ++ e).data = "Start parse error: ".data ++ e.data := by
        simp
      rw [this]
      exact isSubB_append_right _ (by decide)
    have htrig : anomalyTriggered ex.fields = true := by
      unfold anomalyTriggered
      rw [show strContains (notesJoinedOf ex.fields) "parse error" = true from
        strContains_of_mem_joinNotes hmem hsub]
      simp
    refine ⟨anomOf ex.fields, ?_, ?_⟩
    · rw [hanom, if_pos htrig]
    · exact strContains_of_mem_joinNotes hmem hsub
  · intro headerCols year line ex rec anomOpt er e hpl hex her hne herr
    obtain ⟨ex', hex', hrec, hanom, hkeep⟩ := processLine_some_parts hpl
    rw [hex] at hex'
    cases hex'
    have hpp : parsePair "End parse error: " (fget ex.fields "Fin planification") =
        (none, ["End parse error: " ++ e]) := by
      rw [her]
      exact parsePair_of_error hne (by simpa using herr)
    have hmem : ("End parse error: " ++ e) ∈ notesOf ex.fields := by
      unfold notesOf
      rw [hpp]
      simp
    have hsub : isSubB "parse error".data ("End parse error: " ++ e).data = true := by
      have : ("End parse error: " ++ e).data = "End parse error: ".data ++ e.data := by
        simp
      rw [this]
      exact isSubB_append_right _ (by decide)
    have htrig : anomalyTriggered ex.fields = true := by
      unfold anomalyTriggered
      rw [show strContains (notesJoinedOf ex.fields) "parse error" = true from
        strContains_of_mem_joinNotes hmem hsub]
      simp
    refine ⟨anomOf ex.fields, ?_, ?_⟩
    · rw [hanom, if_pos htrig]
    · exact strContains_of_mem_joinNotes hmem hsub
  · intro s h
    unfold parse_date_only
    rw [tryFormats_eq_none h]
    rfl

theorem date_parse_error_recovery_witness :
    parse_dt "pas une date" = .error ("Date/heure non reconnue: " ++ pyStrip "pas une date") ∧
    tryFormats DT_FORMATS "15-03-25 07:30".data = some ⟨2025, 3, 15, 7, 30, 0⟩ ∧
    (∃ a, (if anomalyTriggered (alignedFields ["ID", "Début planification", "Créé le"]
          (toksOf ';' "BE-5-;pas une date;15-03-25")) = true then
        some (anomOf (alignedFields ["ID", "Début planification", "Créé le"]
          (toksOf ';' "BE-5-;pas une date;15-03-25"))) else none) = some a ∧
      strContains a.notes "parse error" = true) ∧
    (∃ a, (if anomalyTriggered (alignedFields ["ID", "Fin planification", "Créé le"]
          (toksOf ';' "BE-6-;pas une date;15-03-25")) = true then
        some (anomOf (alignedFields ["ID", "Fin planification", "Créé le"]
          (toksOf ';' "BE-6-;pas une date;15-03-25"))) else none) = some a ∧
      strContains a.notes "parse error" = true) ∧
    parse_date_only "pas une date" = none :=
  ⟨date_parse_error_recovery.1 "pas une date" (by decide),
   date_parse_error_recovery.2.1 _ _ "15-03-25 07:30".data ⟨2025, 3, 15, 7, 30, 0⟩ (by decide),
   date_parse_error_recovery.2.2.1 ["ID", "Début planification", "Créé le"] 2025
     "BE-5-;pas une date;15-03-25"
     ⟨alignedFields ["ID", "Début planification", "Créé le"]
        (toksOf ';' "BE-5-;pas une date;15-03-25"), true⟩
     (recOf (alignedFields ["ID", "Début planification", "Créé le"]
        (toksOf ';' "BE-5-;pas une date;15-03-25")))
     (if anomalyTriggered (alignedFields ["ID", "Début planification", "Créé le"]
          (toksOf ';' "BE-5-;pas une date;15-03-25")) = true then
        some (anomOf (alignedFields ["ID", "Début planification", "Créé le"]
          (toksOf ';' "BE-5-;pas une date;15-03-25"))) else none)
     "pas une date" ("Date/heure non reconnue: pas une date")
     (by decide) (by decide) (by decide) (by decide) (by decide),
   date_parse_error_recovery.2.2.2.1 ["ID", "Fin planification", "Créé le"] 2025
     "BE-6-;pas une date;15-03-25"
     ⟨alignedFields ["ID", "Fin planification", "Créé le"]
        (toksOf ';' "BE-6-;pas une date;15-03-25"), true⟩
     (recOf (alignedFields ["ID", "Fin planification", "Créé le"]
        (toksOf ';' "BE-6-;pas une date;15-03-25")))
     (if anomalyTriggered (alignedFields ["ID", "Fin planification", "Créé le"]
          (toksOf ';' "BE-6-;pas une date;15-03-25")) = true then
        some (anomOf (alignedFields ["ID", "Fin planification", "Créé le"]
          (toksOf ';' "BE-6-;pas une date;15-03-25"))) else none)
     "pas une date" ("Date/heure non reconnue: pas une date")
     (by decide) (by decide) (by decide) (by decide) (by decide),
   date_parse_error_recovery.2.2.2.2 "pas une date" (by decide)⟩

end BS

namespace BS

theorem corrPairOf_of_lt {f : FieldMap} {sd ed : PyDateTime}
    (hsd : parsedStartOf f = some sd) (hed : parsedEndOf f = some ed)
    (hlt : dtLt ed sd = true) :
    corrPairOf f =
      (some (addHours12 ed), ["End time shifted +12h (12h ambiguity forced)"]) := by
  unfold corrPairOf
  rw [hsd, hed]
  simp [hlt]

theorem durPairOf_eq {f : FieldMap} {sd ec : PyDateTime}
    (hsd : parsedStartOf f = some sd) (hec : endCorrOf f = some ec) :
    durPairOf f = (some ((toSecs ec : Int) - (toSecs sd : Int)),
      if (toSecs ec : Int) - (toSecs sd : Int) < 0 then
        ["Duration still negative after correction"] else []) := by
  unfold durPairOf
  rw [hsd, hec]

/-- C4: for every kept record where start and end both parse and the end
precedes the start, the corrected end is exactly the parsed end plus twelve
hours (applied once — `toSecs` advances by exactly 43200 seconds), the record
appears in the anomaly set with a note mentioning the shift, and when the
corrected duration is still negative a distinct note is recorded while the
negative duration value itself is kept on the record. -/
theorem twelve_hour_correction (headerCols : List String) (year : Nat) (line : String)
    (ex : ExtractResult) (rec : NRec) (anomOpt : Option AnomE) (sd ed : PyDateTime)
    (hpl : processLine headerCols year line = some (rec, anomOpt))
    (hex : extract_fields line headerCols ';' = some ex)
    (hsd : parsedStartOf ex.fields = some sd)
    (hed : parsedEndOf ex.fields = some ed)
    (hlt : dtLt ed sd = true) :
    rec.endDtCorr = some (addHours12 ed) ∧
    toSecs (addHours12 ed) = toSecs ed + 43200 ∧
    rec.duree = some ((toSecs (addHours12 ed) : Int) - (toSecs sd : Int)) ∧
    ∃ a, anomOpt = some a ∧
      strContains a.notes "End time shifted +12h" = true ∧
      (((toSecs (addHours12 ed) : Int) - (toSecs sd : Int)) < 0 →
        strContains a.notes "Duration still negative after correction" = true) := by
  obtain ⟨ex', hex', hrec, hanom, _⟩ := processLine_some_parts hpl
  rw [hex] at hex'
  cases hex'
  have hcorr := corrPairOf_of_lt hsd hed hlt
  have hec : endCorrOf ex.fields = some (addHours12 ed) := by
    unfold endCorrOf
    rw [hcorr]
  have hdur := durPairOf_eq hsd hec
  have hmem : "End time shifted +12h (12h ambiguity forced)" ∈ notesOf ex.fields := by
    unfold notesOf
    rw [hcorr]
    simp
  have hsub : isSubB "End time shifted +12h".data
      "End time shifted +12h (12h ambiguity forced)".data = true := by decide
  have hcont := strContains_of_mem_joinNotes hmem hsub
  have htrig : anomalyTriggered ex.fields = true := by
    unfold anomalyTriggered
    rw [show strContains (notesJoinedOf ex.fields) "End time shifted +12h" = true from hcont]
    simp
  refine ⟨?_, toSecs_addHours12 ed (parsedEndOf_valid hed), ?_, anomOf ex.fields, ?_, ?_, ?_⟩
  · rw [hrec]
    exact hec
  · rw [hrec]
    show (durPairOf ex.fields).1 = _
    rw [hdur]
  · rw [hanom, if_pos htrig]
  · exact hcont
  · intro hneg
    have hmemneg : "Duration still negative after correction" ∈ notesOf ex.fields := by
      unfold notesOf
      rw [hdur]
      simp
      omega
    exact strContains_of_mem_joinNotes hmemneg (by decide)

theorem twelve_hour_correction_witness :
    processLine ["ID", "Début planification", "Fin planification"] 2025
        "BE-1-;15-03-25 19:00;15-03-25 07:30" =
      some (recOf (alignedFields ["ID", "Début planification", "Fin planification"]
              (toksOf ';' "BE-1-;15-03-25 19:00;15-03-25 07:30")),
            some (anomOf (alignedFields ["ID", "Début planification", "Fin planification"]
              (toksOf ';' "BE-1-;15-03-25 19:00;15-03-25 07:30")))) ∧
    ((recOf (alignedFields ["ID", "Début planification", "Fin planification"]
        (toksOf ';' "BE-1-;15-03-25 19:00;15-03-25 07:30"))).endDtCorr =
      some (addHours12 ⟨2025, 3, 15, 7, 30, 0⟩) ∧
     toSecs (addHours12 ⟨2025, 3, 15, 7, 30, 0⟩) = toSecs ⟨2025, 3, 15, 7, 30, 0⟩ + 43200 ∧
     (recOf (alignedFields ["ID", "Début planification", "Fin planification"]
        (toksOf ';' "BE-1-;15-03-25 19:00;15-03-25 07:30"))).duree =
      some ((toSecs (addHours12 ⟨2025, 3, 15, 7, 30, 0⟩) : Int) -
        (toSecs ⟨2025, 3, 15, 19, 0, 0⟩ : Int)) ∧
     ∃ a, some (anomOf (alignedFields ["ID", "Début planification", "Fin planification"]
          (toksOf ';' "BE-1-;15-03-25 19:00;15-03-25 07:30"))) = some a ∧
       strContains a.notes "End time shifted +12h" = true ∧
       (((toSecs (addHours12 ⟨2025, 3, 15, 7, 30, 0⟩) : Int) -
          (toSecs ⟨2025, 3, 15, 19, 0, 0⟩ : Int)) < 0 →
         strContains a.notes "Duration still negative after correction" = true)) :=
  ⟨by decide,
   twelve_hour_correction ["ID", "Début planification", "Fin planification"] 2025
     "BE-1-;15-03-25 19:00;15-03-25 07:30"
     ⟨alignedFields ["ID", "Début planification", "Fin planification"]
        (toksOf ';' "BE-1-;15-03-25 19:00;15-03-25 07:30"), true⟩
     (recOf (alignedFields ["ID", "Début planification", "Fin planification"]
        (toksOf ';' "BE-1-;15-03-25 19:00;15-03-25 07:30")))
     (some (anomOf (alignedFields ["ID", "Début planification", "Fin planification"]
        (toksOf ';' "BE-1-;15-03-25 19:00;15-03-25 07:30"))))
     ⟨2025, 3, 15, 19, 0, 0⟩ ⟨2025, 3, 15, 7, 30, 0⟩
     (by decide) (by decide) (by decide) (by decide) (by decide)⟩

end BS

namespace BS

/-- Does a record carry a non-empty ID starting with the record-id prefix? -/
def idStartsOk (r : NRec) : Bool :=
  match r.id with
  | some s => ¬ (s == "") && startsBE s
  | none => false

/-- C2 counterexample: with header `ID;Début planification` and the quoted
record line `"BE-1001-";15-03-25 07:30`, the aligned path copies the *raw*
first token (quotes included) into the `ID` column, so the pipeline emits a
record whose ID value is `"BE-1001-"` — it does not start with `BE-`. -/
theorem record_id_prefix_counterexample :
    pipeline ["ID;Début planification", "\"BE-1001-\";15-03-25 07:30"] 2025 =
      .ok ([⟨some "\"BE-1001-\"", none, none, none, none,
             some ⟨2025, 3, 15, 7, 30, 0⟩, none, none, none, none⟩],
           [⟨some "\"BE-1001-\"", some "15-03-25 07:30", none, none, none,
             "End missing | Agents/Équipes missing"⟩]) ∧
    idStartsOk ⟨some "\"BE-1001-\"", none, none, none, none,
      some ⟨2025, 3, 15, 7, 30, 0⟩, none, none, none, none⟩ = false := by
  decide

/-- C2 amended: every emitted record comes from a logical record whose
cleaned first token starts with `BE-` (records failing that test are never
emitted); a record produced by the heuristic path carries exactly that cleaned
token — non-empty and starting with `BE-` — as its ID, while an aligned record
copies the raw token of the header's `ID` column verbatim, which may retain
quotes or byte-order marks or be absent. -/
theorem record_id_prefix_amended (headerCols : List String) (year : Nat)
    (line : String) (rec : NRec) (anomOpt : Option AnomE)
    (hpl : processLine headerCols year line = some (rec, anomOpt)) :
    startsBE (ridOf ';' line) = true ∧ ridOf ';' line ≠ "" ∧
    ((toksOf ';' line).length ≠ headerCols.length →
      rec.id = some (ridOf ';' line) ∧ idStartsOk rec = true) := by
  obtain ⟨ex, hex, hrec, _, _⟩ := processLine_some_parts hpl
  have hs := extract_fields_some_startsBE hex
  have hne : ridOf ';' line ≠ "" := by
    intro he
    rw [he] at hs
    simp [startsBE, List.isPrefixOf] at hs
  refine ⟨hs, hne, ?_⟩
  intro hlen
  rw [extract_fields_eq_heuristic hs hlen] at hex
  cases hex
  have hid : rec.id = some (ridOf ';' line) := by
    rw [hrec]
    show fget (heuristicFields headerCols (toksOf ';' line) (ridOf ';' line)) "ID" =
      some (ridOf ';' line)
    exact fget_heuristicFields_ID headerCols (toksOf ';' line) (ridOf ';' line)
  refine ⟨hid, ?_⟩
  unfold idStartsOk
  rw [hid]
  simp [hne, hs]

theorem record_id_prefix_amended_witness :
    processLine ["ID", "Début planification"] 2025
        "BE-7-;junk;15-03-25 08:00;15-03-25 09:00" =
      some (recOf (heuristicFields ["ID", "Début planification"]
              (toksOf ';' "BE-7-;junk;15-03-25 08:00;15-03-25 09:00") "BE-7-"),
            some (anomOf (heuristicFields ["ID", "Début planification"]
              (toksOf ';' "BE-7-;junk;15-03-25 08:00;15-03-25 09:00") "BE-7-"))) ∧
    (startsBE (ridOf ';' "BE-7-;junk;15-03-25 08:00;15-03-25 09:00") = true ∧
     ridOf ';' "BE-7-;junk;15-03-25 08:00;15-03-25 09:00" ≠ "" ∧
     ((toksOf ';' "BE-7-;junk;15-03-25 08:00;15-03-25 09:00").length ≠
        (["ID", "Début planification"] : List String).length →
       (recOf (heuristicFields ["ID", "Début planification"]
          (toksOf ';' "BE-7-;junk;15-03-25 08:00;15-03-25 09:00") "BE-7-")).id =
         some (ridOf ';' "BE-7-;junk;15-03-25 08:00;15-03-25 09:00") ∧
       idStartsOk (recOf (heuristicFields ["ID", "Début planification"]
          (toksOf ';' "BE-7-;junk;15-03-25 08:00;15-03-25 09:00") "BE-7-")) = true)) :=
  ⟨by decide,
   record_id_prefix_amended ["ID", "Début planification"] 2025
     "BE-7-;junk;15-03-25 08:00;15-03-25 09:00"
     (recOf (heuristicFields ["ID", "Début planification"]
        (toksOf ';' "BE-7-;junk;15-03-25 08:00;15-03-25 09:00") "BE-7-"))
     (some (anomOf (heuristicFields ["ID", "Début planification"]
        (toksOf ';' "BE-7-;junk;15-03-25 08:00;15-03-25 09:00") "BE-7-")))
     (by decide)⟩

end BS

namespace BS

/-- C10 counterexample: in the record `BE-1-;d;X;01-01-25;02-01-25` with the
canonical 11-column header, no agents anchor exists (no datetime token at all
and the due-date token has no token three positions after it) and no token is
address-like, yet the heuristic extractor assigns `Bâtiment/Équipement` from
the token two positions before the due-date anchor (`X`). -/
theorem heuristic_no_anchor_counterexample :
    endIdxOf (toksOf ';' "BE-1-;d;X;01-01-25;02-01-25") = none ∧
    agentsIdxTok (toksOf ';' "BE-1-;d;X;01-01-25;02-01-25") = none ∧
    (∀ t ∈ toksOf ';' "BE-1-;d;X;01-01-25;02-01-25", looks_like_address t = false) ∧
    extract_fields "BE-1-;d;X;01-01-25;02-01-25"
        ["ID", "Description", "Catégorie", "Bâtiment/Équipement", "Adresse", "Créé le",
         "Échéance", "Début planification", "Fin planification", "Agents/Équipes",
         "Consigne"] ';' =
      some ⟨heuristicFields
        ["ID", "Description", "Catégorie", "Bâtiment/Équipement", "Adresse", "Créé le",
         "Échéance", "Début planification", "Fin planification", "Agents/Équipes",
         "Consigne"] (toksOf ';' "BE-1-;d;X;01-01-25;02-01-25") "BE-1-", false⟩ ∧
    fget (heuristicFields
        ["ID", "Description", "Catégorie", "Bâtiment/Équipement", "Adresse", "Créé le",
         "Échéance", "Début planification", "Fin planification", "Agents/Équipes",
         "Consigne"] (toksOf ';' "BE-1-;d;X;01-01-25;02-01-25") "BE-1-")
      "Bâtiment/Équipement" = some "X" := by
  decide

/-- C10 amended: in the heuristic path, when no agents anchor exists, no
token is address-like, and additionally no due-date anchor exists, the
extractor leaves both `Consigne` and `Bâtiment/Équipement` absent (it never
raises — extraction is total); with a due-date anchor present the building
field may still be filled from the token two positions before it. -/
theorem heuristic_no_anchor_fields_absent (line : String) (headerCols : List String)
    (ex : ExtractResult)
    (hex : extract_fields line headerCols ';' = some ex)
    (hal : ex.aligned = false)
    (hag : agentsIdxTok (toksOf ';' line) = none)
    (haddr : ∀ t ∈ toksOf ';' line, looks_like_address t = false)
    (hech : (createdEchOf (toksOf ';' line)).2 = none) :
    fget ex.fields "Consigne" = none ∧ fget ex.fields "Bâtiment/Équipement" = none := by
  rcases extract_fields_cases hex with ⟨ha, _, _⟩ | ⟨_, _, hf⟩
  · rw [ha] at hal
    cases hal
  · rw [hf]
    exact ⟨fget_heuristicFields_consigne_none _ _ _ hag,
           fget_heuristicFields_bat_none _ _ _ hech haddr⟩

theorem heuristic_no_anchor_fields_absent_witness :
    extract_fields "BE-1-;hello;world"
        ["ID", "Description", "Catégorie", "Bâtiment/Équipement", "Adresse", "Créé le",
         "Échéance", "Début planification", "Fin planification", "Agents/Équipes",
         "Consigne"] ';' =
      some ⟨heuristicFields
        ["ID", "Description", "Catégorie", "Bâtiment/Équipement", "Adresse", "Créé le",
         "Échéance", "Début planification", "Fin planification", "Agents/Équipes",
         "Consigne"] (toksOf ';' "BE-1-;hello;world") "BE-1-", false⟩ ∧
    fget (heuristicFields
        ["ID", "Description", "Catégorie", "Bâtiment/Équipement", "Adresse", "Créé le",
         "Échéance", "Début planification", "Fin planification", "Agents/Équipes",
         "Consigne"] (toksOf ';' "BE-1-;hello;world") "BE-1-") "Consigne" = none ∧
    fget (heuristicFields
        ["ID", "Description", "Catégorie", "Bâtiment/Équipement", "Adresse", "Créé le",
         "Échéance", "Début planification", "Fin planification", "Agents/Équipes",
         "Consigne"] (toksOf ';' "BE-1-;hello;world") "BE-1-")
      "Bâtiment/Équipement" = none :=
  ⟨by decide,
   (heuristic_no_anchor_fields_absent "BE-1-;hello;world"
     ["ID", "Description", "Catégorie", "Bâtiment/Équipement", "Adresse", "Créé le",
      "Échéance", "Début planification", "Fin planification", "Agents/Équipes",
      "Consigne"]
     ⟨heuristicFields
        ["ID", "Description", "Catégorie", "Bâtiment/Équipement", "Adresse", "Créé le",
         "Échéance", "Début planification", "Fin planification", "Agents/Équipes",
         "Consigne"] (toksOf ';' "BE-1-;hello;world") "BE-1-", false⟩
     (by decide) (by decide) (by decide) (by decide) (by decide)).1,
   (heuristic_no_anchor_fields_absent "BE-1-;hello;world"
     ["ID", "Description", "Catégorie", "Bâtiment/Équipement", "Adresse", "Créé le",
      "Échéance", "Début planification", "Fin planification", "Agents/Équipes",
      "Consigne"]
     ⟨heuristicFields
        ["ID", "Description", "Catégorie", "Bâtiment/Équipement", "Adresse", "Créé le",
         "Échéance", "Début planification", "Fin planification", "Agents/Équipes",
         "Consigne"] (toksOf ';' "BE-1-;hello;world") "BE-1-", false⟩
     (by decide) (by decide) (by decide) (by decide) (by decide)).2⟩

end BS

namespace BS

/-! ### Anomaly classification conditions -/

/-- Start raw value present but unparseable. -/
def startParseFailB (f : FieldMap) : Bool :=
  ¬ isEmptyO (fget f "Début planification") &&
    isErr (parse_dt ((fget f "Début planification").getD ""))

/-- End raw value present but unparseable. -/
def endParseFailB (f : FieldMap) : Bool :=
  ¬ isEmptyO (fget f "Fin planification") &&
    isErr (parse_dt ((fget f "Fin planification").getD ""))

/-- The 12-hour correction fires: both timestamps parsed and end < start. -/
def corrAppliedB (f : FieldMap) : Bool :=
  match parsedStartOf f, parsedEndOf f with
  | some sd, some ed => dtLt ed sd
  | _, _ => false

/-- The corrected duration is still negative. -/
def stillNegB (f : FieldMap) : Bool :=
  match parsedStartOf f, endCorrOf f with
  | some sd, some ec => decide ((toSecs ec : Int) - (toSecs sd : Int) < 0)
  | _, _ => false

theorem parsePair_snd_nil {tag : String} {raw : Option String}
    (h : (¬ isEmptyO raw && isErr (parse_dt (raw.getD ""))) = false) :
    (parsePair tag raw).2 = [] := by
  unfold parsePair
  by_cases he : isEmptyO raw = true
  · rw [if_neg (by simp [he])]
  · have hb : isEmptyO raw = false := by simpa using he
    rw [if_pos (by simp [hb])]
    cases hp : parse_dt (raw.getD "") with
    | ok d => rfl
    | error e =>
      rw [hb, hp] at h
      simp [isErr] at h

theorem parsePair_snd_of_fail (tag : String) {raw : Option String}
    (h : (¬ isEmptyO raw && isErr (parse_dt (raw.getD ""))) = true) :
    ∃ e, (parsePair tag raw).2 = [tag ++ e] := by
  simp only [Bool.and_eq_true] at h
  have hb : isEmptyO raw = false := by
    rcases h with ⟨h1, _⟩
    revert h1
    cases isEmptyO raw <;> simp
  cases hp : parse_dt (raw.getD "") with
  | ok d =>
    rw [hp] at h
    simp [isErr] at h
  | error e =>
    refine ⟨e, ?_⟩
    unfold parsePair
    rw [if_pos (by simp [hb]), hp]

theorem parsePair_fst_none_of_fail {tag : String} {raw : Option String}
    (h : (¬ isEmptyO raw && isErr (parse_dt (raw.getD ""))) = true) :
    (parsePair tag raw).1 = none := by
  simp only [Bool.and_eq_true] at h
  have hb : isEmptyO raw = false := by
    rcases h with ⟨h1, _⟩
    revert h1
    cases isEmptyO raw <;> simp
  cases hp : parse_dt (raw.getD "") with
  | ok d =>
    rw [hp] at h
    simp [isErr] at h
  | error e =>
    unfold parsePair
    rw [if_pos (by simp [hb]), hp]

theorem notesOf_nil (f : FieldMap)
    (h1 : startParseFailB f = false) (h2 : endParseFailB f = false)
    (h3 : (parsedStartOf f).isNone = false) (h4 : (parsedEndOf f).isNone = false)
    (h5 : isEmptyO (fget f "Agents/Équipes") = false)
    (h6 : corrAppliedB f = false) (h7 : stillNegB f = false) :
    notesOf f = [] := by
  obtain ⟨sd, hsd⟩ : ∃ d, parsedStartOf f = some d := by
    cases hx : parsedStartOf f with
    | none => rw [hx] at h3; cases h3
    | some d => exact ⟨d, rfl⟩
  obtain ⟨ed, hed⟩ : ∃ d, parsedEndOf f = some d := by
    cases hx : parsedEndOf f with
    | none => rw [hx] at h4; cases h4
    | some d => exact ⟨d, rfl⟩
  have hlt : dtLt ed sd = false := by
    unfold corrAppliedB at h6
    rw [hsd, hed] at h6
    exact h6
  have hcorr : corrPairOf f = (some ed, []) := by
    unfold corrPairOf
    rw [hsd, hed]
    simp [hlt]
  have hec : endCorrOf f = some ed := by
    unfold endCorrOf
    rw [hcorr]
  have hnonneg : ¬ ((toSecs ed : Int) - (toSecs sd : Int) < 0) := by
    unfold stillNegB at h7
    rw [hsd, hec] at h7
    simpa using h7
  unfold notesOf
  rw [parsePair_snd_nil (by simpa [startParseFailB] using h1),
    parsePair_snd_nil (by simpa [endParseFailB] using h2)]
  unfold missNotesOf
  rw [hsd, hed, h5, hcorr, durPairOf_eq hsd hec, if_neg hnonneg]
  simp

theorem anomalyTriggered_false_of_no_notes (f : FieldMap) (h : notesOf f = []) :
    anomalyTriggered f = false := by
  unfold anomalyTriggered notesJoinedOf
  rw [h]
  decide

theorem anomalyTriggered_of_note {f : FieldMap} (n pat : String)
    (hmem : n ∈ notesOf f) (hsub : isSubB pat.data n.data = true)
    (hpat : pat = "parse error" ∨ pat = "missing" ∨ pat = "End time shifted +12h" ∨
      pat = "Duration still negative") :
    anomalyTriggered f = true := by
  have hc := strContains_of_mem_joinNotes hmem hsub
  unfold anomalyTriggered
  rcases hpat with rfl | rfl | rfl | rfl <;>
    rw [show strContains (notesJoinedOf f) _ = true from hc] <;> simp

theorem anomalyTriggered_iff (f : FieldMap) :
    anomalyTriggered f = true ↔
      (startParseFailB f = true ∨ endParseFailB f = true ∨
       (parsedStartOf f).isNone = true ∨ (parsedEndOf f).isNone = true ∨
       isEmptyO (fget f "Agents/Équipes") = true ∨
       corrAppliedB f = true ∨ stillNegB f = true) := by
  constructor
  · intro htrig
    by_contra hnone
    push_neg at hnone
    obtain ⟨h1, h2, h3, h4, h5, h6, h7⟩ := hnone
    have hnil := notesOf_nil f
      (by revert h1; cases startParseFailB f <;> simp)
      (by revert h2; cases endParseFailB f <;> simp)
      (by revert h3; cases (parsedStartOf f).isNone <;> simp)
      (by revert h4; cases (parsedEndOf f).isNone <;> simp)
      (by revert h5; cases isEmptyO (fget f "Agents/Équipes") <;> simp)
      (by revert h6; cases corrAppliedB f <;> simp)
      (by revert h7; cases stillNegB f <;> simp)
    rw [anomalyTriggered_false_of_no_notes f hnil] at htrig
    cases htrig
  · intro h
    rcases h with h | h | h | h | h | h | h
    · obtain ⟨e, hpp⟩ := parsePair_snd_of_fail "Start parse error: "
        (by simpa [startParseFailB] using h)
      refine anomalyTriggered_of_note ("Start parse error: " ++ e)
        "parse error" ?_ ?_ (Or.inl rfl)
      · unfold notesOf
        rw [hpp]
        simp
      · rw [show ("Start parse error: " ++ e).data =
          "Start parse error: ".data ++ e.data from by simp]
        exact isSubB_append_right _ (by decide)
    · obtain ⟨e, hpp⟩ := parsePair_snd_of_fail "End parse error: "
        (by simpa [endParseFailB] using h)
      refine anomalyTriggered_of_note ("End parse error: " ++ e)
        "parse error" ?_ ?_ (Or.inl rfl)
      · unfold notesOf
        rw [hpp]
        simp
      · rw [show ("End parse error: " ++ e).data =
          "End parse error: ".data ++ e.data from by simp]
        exact isSubB_append_right _ (by decide)
    · refine anomalyTriggered_of_note "Start missing" "missing" ?_
        (by decide) (Or.inr (Or.inl rfl))
      unfold notesOf missNotesOf
      rw [h]
      simp
    · refine anomalyTriggered_of_note "End missing" "missing" ?_
        (by decide) (Or.inr (Or.inl rfl))
      unfold notesOf missNotesOf
      rw [h]
      simp
    · refine anomalyTriggered_of_note "Agents/Équipes missing" "missing" ?_
        (by decide) (Or.inr (Or.inl rfl))
      unfold notesOf missNotesOf
      rw [h]
      simp
    · obtain ⟨sd, ed, hsd, hed, hlt⟩ :
          ∃ sd ed, parsedStartOf f = some sd ∧ parsedEndOf f = some ed ∧
            dtLt ed sd = true := by
        unfold corrAppliedB at h
        cases hx : parsedStartOf f with
        | none => rw [hx] at h; cases h
        | some sd =>
          cases hy : parsedEndOf f with
          | none => rw [hx, hy] at h; cases h
          | some ed =>
            rw [hx, hy] at h
            exact ⟨sd, ed, rfl, rfl, h⟩
      refine anomalyTriggered_of_note
        "End time shifted +12h (12h ambiguity forced)"
        "End time shifted +12h" ?_ (by decide) (Or.inr (Or.inr (Or.inl rfl)))
      unfold notesOf
      rw [corrPairOf_of_lt hsd hed hlt]
      simp
    · obtain ⟨sd, ec, hsd, hec, hneg⟩ :
          ∃ sd ec, parsedStartOf f = some sd ∧ endCorrOf f = some ec ∧
            (toSecs ec : Int) - (toSecs sd : Int) < 0 := by
        unfold stillNegB at h
        cases hx : parsedStartOf f with
        | none => rw [hx] at h; cases h
        | some sd =>
          cases hy : endCorrOf f with
          | none => rw [hx, hy] at h; cases h
          | some ec =>
            rw [hx, hy] at h
            exact ⟨sd, ec, rfl, rfl, by simpa using h⟩
      refine anomalyTriggered_of_note
        "Duration still negative after correction"
        "Duration still negative" ?_ (by decide)
        (Or.inr (Or.inr (Or.inr rfl)))
      unfold notesOf
      rw [durPairOf_eq hsd hec, if_pos hneg]
      simp

end BS

namespace BS

/-- C8: a kept record yields an anomaly entry exactly when at least one of
the seven triggers holds (start or end parse failure, start or end absent,
agents/teams absent, 12-hour correction applied, duration still negative
after correction); multiple triggers produce the single entry whose notes are
the note list joined by the separator, and every anomaly entry of a pipeline
run carries the ID of a record emitted in that same run. -/
theorem anomaly_classification :
    (∀ (headerCols : List String) (year : Nat) (line : String) (rec : NRec)
        (anomOpt : Option AnomE) (ex : ExtractResult),
      processLine headerCols year line = some (rec, anomOpt) →
      extract_fields line headerCols ';' = some ex →
      ((anomOpt.isSome = true ↔
        (startParseFailB ex.fields = true ∨ endParseFailB ex.fields = true ∨
         (parsedStartOf ex.fields).isNone = true ∨
         (parsedEndOf ex.fields).isNone = true ∨
         isEmptyO (fget ex.fields "Agents/Équipes") = true ∨
         corrAppliedB ex.fields = true ∨ stillNegB ex.fields = true)) ∧
       ∀ a, anomOpt = some a →
         a.notes = joinNotes (notesOf ex.fields) ∧ a.id = rec.id)) ∧
    (∀ (lines : List String) (year : Nat) (recs : List NRec) (anoms : List AnomE),
      pipeline lines year = .ok (recs, anoms) →
      ∀ a ∈ anoms, a.id ∈ recs.map NRec.id) := by
  constructor
  · intro headerCols year line rec anomOpt ex hpl hex
    obtain ⟨ex', hex', hrec, hanom, _⟩ := processLine_some_parts hpl
    rw [hex] at hex'
    cases hex'
    constructor
    · rw [← anomalyTriggered_iff]
      rw [hanom]
      by_cases ht : anomalyTriggered ex.fields = true
      · simp [ht]
      · simp [ht]
    · intro a ha
      rw [hanom] at ha
      by_cases ht : anomalyTriggered ex.fields = true
      · rw [if_pos ht] at ha
        cases ha
        exact ⟨rfl, by rw [hrec]; rfl⟩
      · rw [if_neg ht] at ha
        cases ha
  · intro lines year recs anoms hpl
    unfold pipeline at hpl
    cases hr : rebuild_records_by_id lines ';' with
    | nil => rw [hr] at hpl; cases hpl
    | cons header recLines =>
      rw [hr] at hpl
      simp only [Except.ok.injEq, Prod.mk.injEq] at hpl
      obtain ⟨hrecs, hanoms⟩ := hpl
      intro a ha
      rw [← hanoms] at ha
      obtain ⟨pr, hprmem, hpr⟩ := List.mem_filterMap.mp ha
      obtain ⟨l, hlmem, hproc⟩ := List.mem_filterMap.mp hprmem
      obtain ⟨ex, hex, hrec, hanom, _⟩ := processLine_some_parts
        (show processLine ((pySplit ';' header).map pyStrip) year l =
          some (pr.1, pr.2) from by rw [hproc])
      rw [hanom] at hpr
      by_cases ht : anomalyTriggered ex.fields = true
      · rw [if_pos ht] at hpr
        cases hpr
        rw [← hrecs]
        refine List.mem_map.mpr ⟨pr.1, List.mem_map_of_mem Prod.fst hprmem, ?_⟩
        rw [hrec]
        rfl
      · rw [if_neg ht] at hpr
        cases hpr

theorem anomaly_classification_witness :
    (let f := alignedFields ["ID", "Début planification", "Fin planification"]
      (toksOf ';' "BE-1-;15-03-25 19:00;15-03-25 07:30")
     ((some (anomOf f) : Option AnomE).isSome = true ↔
        (startParseFailB f = true ∨ endParseFailB f = true ∨
         (parsedStartOf f).isNone = true ∨ (parsedEndOf f).isNone = true ∨
         isEmptyO (fget f "Agents/Équipes") = true ∨
         corrAppliedB f = true ∨ stillNegB f = true)) ∧
      ∀ a, (some (anomOf f) : Option AnomE) = some a →
        a.notes = joinNotes (notesOf f) ∧ a.id = (recOf f).id) ∧
    (∀ a ∈ [anomOf (alignedFields ["ID", "Début planification", "Fin planification"]
        (toksOf ';' "BE-1-;15-03-25 19:00;15-03-25 07:30"))],
      a.id ∈ [recOf (alignedFields ["ID", "Début planification", "Fin planification"]
        (toksOf ';' "BE-1-;15-03-25 19:00;15-03-25 07:30"))].map NRec.id) :=
  ⟨anomaly_classification.1 ["ID", "Début planification", "Fin planification"] 2025
     "BE-1-;15-03-25 19:00;15-03-25 07:30"
     (recOf (alignedFields ["ID", "Début planification", "Fin planification"]
        (toksOf ';' "BE-1-;15-03-25 19:00;15-03-25 07:30")))
     (some (anomOf (alignedFields ["ID", "Début planification", "Fin planification"]
        (toksOf ';' "BE-1-;15-03-25 19:00;15-03-25 07:30"))))
     ⟨alignedFields ["ID", "Début planification", "Fin planification"]
        (toksOf ';' "BE-1-;15-03-25 19:00;15-03-25 07:30"), true⟩
     (by decide) (by decide),
   anomaly_classification.2
     ["ID;Début planification;Fin planification", "BE-1-;15-03-25 19:00;15-03-25 07:30"]
     2025
     [recOf (alignedFields ["ID", "Début planification", "Fin planification"]
        (toksOf ';' "BE-1-;15-03-25 19:00;15-03-25 07:30"))]
     [anomOf (alignedFields ["ID", "Début planification", "Fin planification"]
        (toksOf ';' "BE-1-;15-03-25 19:00;15-03-25 07:30"))]
     (by decide)⟩

end BS
